import Mathlib

/-!
# Power rankings scraper: season store, fetch cache, report export, scrapers

A shallow embedding of the Go package `prlib` (files `types.go`, `prlib.go`,
`nba.go`, `nhl.go`) together with the properties proved about it.

Conventions of the embedding.

* A Go `string` is a Lean `String`; the strings the program compares are
  page text and week identifiers, for which byte-wise and code-point-wise
  lexical order agree (UTF-8 preserves order).
* A Go `int` is a Lean `Int`; `strconv` clamps to 64 bits where Go does.
* A `[]*T` slice is a `List T`; an in-place update returns the new value.
* `sort.Slice` is a parameter of the store operations. Its documented
  contract (the result is a rearrangement of the input, ordered whenever
  `less` is a transitive ordering; stability is not promised) is the
  predicate `IsSliceSort`, and `insertionSort_func` is the routine of
  package `sort` that carries out the work on short slices.
-/

namespace Prlib

/-! ## Definitions: package strconv (base 10 only) -/

/-- The two error kinds of `strconv.NumError`. -/
inductive NumError where
  | ErrSyntax
  | ErrRange
deriving DecidableEq

/-- Largest `uint64`. -/
def maxUint64 : Nat := 2 ^ 64 - 1

/-- The digit loop of `strconv.ParseUint` for base 10: `n` is the `uint64`
accumulator, `maxVal` the largest value of the requested bit size. A byte
that is not a decimal digit is a syntax error; overflow is a range error
that returns `maxUint64`. -/
def ParseUintLoop (maxVal : Nat) : List Char → Nat → Nat × Option NumError
  | [], n => (n, none)
  | d :: rest, n =>
    if 48 ≤ d.toNat ∧ d.toNat ≤ 57 then
      let v := d.toNat - 48
      if n ≥ maxUint64 / 10 + 1 then (maxUint64, some NumError.ErrRange)
      else
        let n10 := (n * 10) % 2 ^ 64
        let n1 := (n10 + v) % 2 ^ 64
        if n1 < n10 ∨ n1 > maxVal then (maxUint64, some NumError.ErrRange)
        else ParseUintLoop maxVal rest n1
    else (0, some NumError.ErrSyntax)

/-- The function `strconv.ParseUint(s, 10, bitSize)` on the bytes of `s`. -/
def ParseUint (s : List Char) (bitSize : Nat) : Nat × Option NumError :=
  let bits := if bitSize = 0 then 64 else bitSize
  if s.length < 1 then (0, some NumError.ErrSyntax)
  else ParseUintLoop ((2 ^ bits % 2 ^ 64 + 2 ^ 64 - 1) % 2 ^ 64) s 0

/-- The function `strconv.ParseInt(s, 10, bitSize)`: value and error. -/
def ParseInt (s : String) (bitSize : Nat) : Int × Option NumError :=
  let bits := if bitSize = 0 then 64 else bitSize
  match s.data with
  | [] => (0, some NumError.ErrSyntax)
  | c :: rest =>
    let neg := decide (c = '-')
    let body := if c = '+' ∨ c = '-' then rest else c :: rest
    let r := ParseUint body bits
    if r.2 = some NumError.ErrSyntax then (0, r.2)
    else
      let cutoff : Nat := 2 ^ (bits - 1)
      if neg = false ∧ r.1 ≥ cutoff then (((cutoff - 1 : Nat) : Int), some NumError.ErrRange)
      else if neg = true ∧ r.1 > cutoff then (-(cutoff : Int), some NumError.ErrRange)
      else (if neg then -(r.1 : Int) else (r.1 : Int), none)

/-- The helper `I` of prlib.go: `strconv.Atoi` with the error dropped. -/
def I (text : String) : Int := (ParseInt text 0).1

/-- The helper `S` of prlib.go: `strconv.Itoa`. -/
def S (val : Int) : String := toString val

/-! ## Definitions: package sort -/

/-- One pass of the inner loop of `insertionSort_func`: the element `x` moves
left past every element it is less than. The sorted part is held reversed,
its last element first. -/
def insertLeft {α : Type} (less : α → α → Bool) (x : α) : List α → List α
  | [] => [x]
  | y :: ys => if less x y then y :: insertLeft less x ys else x :: y :: ys

/-- The outer loop of `insertionSort_func`, the sorted part held reversed. -/
def insertionLoop {α : Type} (less : α → α → Bool) : List α → List α → List α
  | done, [] => done
  | done, x :: rest => insertionLoop less (insertLeft less x done) rest

/-- The routine `insertionSort_func` of package sort over a whole slice.
For a slice of at most six elements it is all that `sort.Slice` runs. -/
def insertionSort_func {α : Type} (less : α → α → Bool) (xs : List α) : List α :=
  (insertionLoop less [] xs).reverse

/-- The requirement package sort puts on `Less`: a transitive ordering, in
which "neither is less" is transitive as well. -/
def LessContract {α : Type} (less : α → α → Bool) : Prop :=
  (∀ a, less a a = false) ∧
  (∀ a b c, less a b = true → less b c = true → less a c = true) ∧
  (∀ a b c, less a b = false → less b c = false → less a c = false)

/-- The type of a `sort.Slice` routine, the comparator taking elements. -/
abbrev SliceSort : Type 1 := (α : Type) → (α → α → Bool) → List α → List α

/-- The documented contract of `sort.Slice`: the slice is rearranged, and
when `less` meets `LessContract` no later element is less than an earlier
one. Nothing is promised about the order of elements that compare equal. -/
def IsSliceSort (srt : SliceSort) : Prop :=
  ∀ (α : Type) (less : α → α → Bool) (xs : List α),
    List.Perm (srt α less xs) xs ∧
    (LessContract less → List.Pairwise (fun a b => less b a = false) (srt α less xs))

/-- The insertion sort of package sort as a `SliceSort`. -/
def goInsertionSort : SliceSort := fun _ less xs => insertionSort_func less xs

/-! ## Definitions: types.go -/

/-- The struct `RankItem`. -/
structure RankItem where
  Team : String
  Rank : Int
deriving DecidableEq

/-- The struct `WeekItem`. -/
structure WeekItem where
  WeekID : String
  ScrapeDate : String
  Rankings : List RankItem
deriving DecidableEq

/-- The struct `SeasonDB`. -/
structure SeasonDB where
  League : String
  WeekItems : List WeekItem
deriving DecidableEq

/-- The loop of `internalGetWeek`: index and item of the first week whose id
is `id`. -/
def internalGetWeekIn (id : String) : List WeekItem → Option (Nat × WeekItem)
  | [] => none
  | item :: rest =>
    if item.WeekID = id then some (0, item)
    else (internalGetWeekIn id rest).map (fun p => (p.1 + 1, p.2))

/-- The method `internalGetWeek`; `none` stands for index -1 and a nil item. -/
def SeasonDB.internalGetWeek (sdb : SeasonDB) (id : String) : Option (Nat × WeekItem) :=
  internalGetWeekIn id sdb.WeekItems

/-- The method `GetWeekItem`; `none` stands for `found = false`. -/
def SeasonDB.GetWeekItem (sdb : SeasonDB) (id : String) : Option WeekItem :=
  match sdb.internalGetWeek id with
  | some (_, item) => some item
  | none => none

/-- The comparator of `WeekItem.SortRankings`. -/
def rankLess (l r : RankItem) : Bool := decide (l.Rank < r.Rank)

/-- The method `WeekItem.SortRankings`. -/
def WeekItem.SortRankings (srt : SliceSort) (wi : WeekItem) : WeekItem :=
  { wi with Rankings := srt RankItem rankLess wi.Rankings }

/-- The comparison `<` of two Go strings: lexical order of the bytes, which
for UTF-8 text is lexical order of the code points. -/
def stringLess : List Char → List Char → Bool
  | [], [] => false
  | [], _ :: _ => true
  | _ :: _, [] => false
  | a :: as, b :: bs =>
    if a.toNat < b.toNat then true
    else if b.toNat < a.toNat then false
    else stringLess as bs

/-- The comparator of `SeasonDB.SortWeekItems` on two week ids. -/
def weekLess (wl wr : String) : Bool :=
  let l := ParseInt wl 63
  let r := ParseInt wr 63
  if l.2 = none then
    if r.2 = none then decide (l.1 < r.1)
    else false
  else
    if r.2 ≠ none then stringLess wl.data wr.data
    else true

/-- The method `SeasonDB.SortWeekItems`. -/
def SeasonDB.SortWeekItems (srt : SliceSort) (sdb : SeasonDB) : SeasonDB :=
  { sdb with WeekItems := srt WeekItem (fun l r => weekLess l.WeekID r.WeekID) sdb.WeekItems }

/-- The method `SeasonDB.UpdateWeekItem`. -/
def SeasonDB.UpdateWeekItem (srt : SliceSort) (sdb : SeasonDB) (item : WeekItem) : SeasonDB :=
  let item := item.SortRankings srt
  let sdb :=
    match sdb.internalGetWeek item.WeekID with
    | some (idx, _) => { sdb with WeekItems := sdb.WeekItems.set idx item }
    | none => { sdb with WeekItems := sdb.WeekItems ++ [item] }
  sdb.SortWeekItems srt

/-- The constructor `NewSeasonDB`. -/
def NewSeasonDB (league : String) : SeasonDB := { League := league, WeekItems := [] }

/-- The week ids of a season, in stored order. -/
def SeasonDB.weekIDs (sdb : SeasonDB) : List String := sdb.WeekItems.map WeekItem.WeekID

/-- Two week ids that `ParseInt` reads as the same number. -/
def sameNumber (a b : String) : Prop :=
  (ParseInt a 63).2 = none ∧ (ParseInt b 63).2 = none ∧ (ParseInt a 63).1 = (ParseInt b 63).1

/-- A run of `UpdateWeekItem` calls, one per element of `ws`, in order. -/
def SeasonDB.upsertAll (srt : SliceSort) (sdb : SeasonDB) (ws : List WeekItem) : SeasonDB :=
  ws.foldl (fun db w => db.UpdateWeekItem srt w) sdb

/-! ## Definitions: packages encoding/base64, encoding/json, strings -/

/-- A byte slice. -/
abbrev Bytes : Type := List (Fin 256)

/-- The alphabet of `base64.StdEncoding`. -/
def encodeStd : List Char :=
  "ABCDEFGHIJKLMNOPQRSTUVWXYZabcdefghijklmnopqrstuvwxyz0123456789+/".data

/-- The table lookup `enc.encode[v]` of package base64. -/
def b64Char (v : Nat) : Char := encodeStd.getD v 'A'

/-- The table lookup `enc.decodeMap[c]` of package base64; `none` is 0xFF. -/
def b64Val (c : Char) : Option Nat :=
  if encodeStd.indexOf c < 64 then some (encodeStd.indexOf c) else none

/-- The method `base64.StdEncoding.Encode`: three bytes become four
characters, a last block of one or two bytes is padded with `=`. -/
def b64Encode : Bytes → List Char
  | a :: b :: c :: rest =>
    let val := a.val * 65536 + b.val * 256 + c.val
    b64Char (val / 262144 % 64) :: b64Char (val / 4096 % 64) :: b64Char (val / 64 % 64) ::
      b64Char (val % 64) :: b64Encode rest
  | [a, b] =>
    let val := a.val * 65536 + b.val * 256
    [b64Char (val / 262144 % 64), b64Char (val / 4096 % 64), b64Char (val / 64 % 64), '=']
  | [a] =>
    let val := a.val * 65536
    [b64Char (val / 262144 % 64), b64Char (val / 4096 % 64), '=', '=']
  | [] => []

/-- The method `base64.StdEncoding.Decode` on padded input without line
breaks; `none` is a `CorruptInputError`. -/
def b64Decode : List Char → Option Bytes
  | [] => some []
  | [c0, c1, c2, c3] =>
    match b64Val c0, b64Val c1 with
    | some v0, some v1 =>
      if c2 = '=' ∧ c3 = '=' then some [Fin.ofNat ((v0 * 64 + v1) / 16)]
      else match b64Val c2 with
        | some v2 =>
          if c3 = '=' then
            some [Fin.ofNat ((v0 * 4096 + v1 * 64 + v2) / 1024),
                  Fin.ofNat ((v0 * 4096 + v1 * 64 + v2) / 4)]
          else match b64Val c3 with
            | some v3 =>
              let val := v0 * 262144 + v1 * 4096 + v2 * 64 + v3
              some [Fin.ofNat (val / 65536), Fin.ofNat (val / 256), Fin.ofNat val]
            | none => none
        | none => none
    | _, _ => none
  | c0 :: c1 :: c2 :: c3 :: rest =>
    match b64Val c0, b64Val c1, b64Val c2, b64Val c3, b64Decode rest with
    | some v0, some v1, some v2, some v3, some tail =>
      let val := v0 * 262144 + v1 * 4096 + v2 * 64 + v3
      some (Fin.ofNat (val / 65536) :: Fin.ofNat (val / 256) :: Fin.ofNat val :: tail)
    | _, _, _, _, _ => none
  | _ => none

/-- The call `json.Marshal(&html)` for a non-nil byte slice: the base64 text
between double quotes. -/
def jsonMarshalBytes (html : Bytes) : String :=
  String.mk ('"' :: (b64Encode html ++ ['"']))

/-- The call `json.Unmarshal(js, &html)` on the JSON texts `jsonMarshalBytes`
produces and on `null`; `none` is an error, which leaves `html` nil. -/
def jsonUnmarshalBytes (js : String) : Option Bytes :=
  if js = "null" then some []
  else match js.data with
    | '"' :: rest =>
      match rest.reverse with
      | '"' :: body => b64Decode body.reverse
      | _ => none
    | _ => none

/-- The call `strings.Split(s, "\n")` on the characters of `s`. -/
def splitNewline : List Char → List (List Char)
  | [] => [[]]
  | c :: cs =>
    if c = '\n' then [] :: splitNewline cs
    else match splitNewline cs with
      | h :: t => (c :: h) :: t
      | [] => [[c]]

/-! ## Definitions: prlib.go, the fetch cache -/

/-- How a call ends when it does not end well: with an error value returned
to the caller, or with a panic that unwinds every caller up to `main`. -/
inductive GoError where
  | err (msg : String)
  | panic (msg : String)
deriving DecidableEq

/-- The answer of the network to one `GET`: the body read, the error of
`client.Do` or `ioutil.ReadAll`, or the refusal of `http.NewRequest` to build
a request for the url. -/
inductive Response where
  | body (html : Bytes)
  | failed (err : String)
  | badRequest (err : String)

/-- How one `Get` call ended: with a body, with an error, or in a panic. -/
inductive FetchOutcome where
  | body
  | failed
  | panicked
deriving DecidableEq

/-- The network as the program meets it: the answer to the request number
`n` (counting from 0) for a url and a user agent. -/
abbrev Network : Type := Nat → String → String → Response

/-- The part of the machine outside the process. The three files a scraper
touches are the fetch log, the debug snapshot and the season document
(`NewScraperUtil` derives three distinct paths for them); a file that does
not exist is `none`. `dbWriteError` is what a write of the season document
would fail with, `none` when it would succeed. The other fields keep count:
the network requests sent, every `Get` call with its url and how it ended,
the number of clock readings and of writes of the season document. -/
structure World where
  cacheFile : Option String
  debugFile : Option Bytes
  dbFile : Option String
  dbWriteError : Option String
  requests : List (String × String)
  fetches : List (String × FetchOutcome)
  clockReads : Nat
  dbWrites : Nat

/-- The struct `HttpQueryCache`. -/
structure HttpQueryCache where
  CachePath : String
  history : List String

/-- The constructor `NewHttpQueryCache`. In replay mode the log file is read
and split into lines, the blank last element dropped; in record mode the log
file is truncated. -/
def NewHttpQueryCache (cachePath : String) (replay : Bool) (w : World) : HttpQueryCache × World :=
  if replay then
    match w.cacheFile with
    | none => ({ CachePath := cachePath, history := [] }, w)
    | some b =>
      if b.length > 0 then
        let history := (splitNewline b.data).map String.mk
        let lastIdx : Int := (history.length : Int) - 1
        if lastIdx ≥ 0 ∧ history.getLast? = some "" then
          ({ CachePath := cachePath, history := history.take lastIdx.toNat }, w)
        else ({ CachePath := cachePath, history := history }, w)
      else ({ CachePath := cachePath, history := [] }, w)
  else
    ({ CachePath := cachePath, history := [] }, { w with cacheFile := some "" })

/-- The line record mode appends to the log for one payload. -/
def recordLine (html : Bytes) : String := jsonMarshalBytes html ++ "\n"

/-- The method `HttpQueryCache.Get`. With an empty history the network is
asked, and a body read is appended to the log; the error of
`http.NewRequest` is not looked at, so a url it rejects leaves the request
nil and the next statement, `req.Header.Add`, panics. With a history the
first line is taken off and decoded, whatever url was asked for. A body
returned overwrites the debug file. -/
def HttpQueryCache.Get (net : Network) (qc : HttpQueryCache) (w : World) (url ua : String) :
    Except GoError Bytes × HttpQueryCache × World :=
  match qc.history with
  | [] =>
    match net w.requests.length url ua with
    | Response.badRequest _ =>
      (Except.error (GoError.panic "invalid memory address or nil pointer dereference"), qc,
        { w with fetches := w.fetches ++ [(url, FetchOutcome.panicked)] })
    | Response.failed e =>
      (Except.error (GoError.err e), qc,
        { w with requests := w.requests ++ [(url, ua)],
                 fetches := w.fetches ++ [(url, FetchOutcome.failed)] })
    | Response.body html =>
      (Except.ok html, qc,
        { w with requests := w.requests ++ [(url, ua)],
                 cacheFile := some (w.cacheFile.getD "" ++ recordLine html),
                 debugFile := some html,
                 fetches := w.fetches ++ [(url, FetchOutcome.body)] })
  | js :: rest =>
    let html := (jsonUnmarshalBytes js).getD []
    (Except.ok html, { qc with history := rest },
      { w with debugFile := some html, fetches := w.fetches ++ [(url, FetchOutcome.body)] })

/-- A run of `Get` calls, one per (url, user agent) pair, in order. -/
def HttpQueryCache.GetAll (net : Network) :
    HttpQueryCache → World → List (String × String) →
      List (Except GoError Bytes) × HttpQueryCache × World
  | qc, w, [] => ([], qc, w)
  | qc, w, (url, ua) :: rest =>
    let r := qc.Get net w url ua
    let rs := HttpQueryCache.GetAll net r.2.1 r.2.2 rest
    (r.1 :: rs.1, rs.2)

/-- The log file after record mode has written the payloads `ps` in order. -/
def recordLog : List Bytes → String
  | [] => ""
  | p :: ps => recordLine p ++ recordLog ps

/-! ## Definitions: package regexp

Go's `regexp` returns the match a backtracking search finds first, leftmost
start first. The matcher below is that search for the constructs the five
patterns of the program use; repetition is over a single character class. -/

/-- The regular expressions of the program. -/
inductive Regex where
  | char (c : Char)
  | cls (p : Char → Bool)
  | star (p : Char → Bool)
  | plus (p : Char → Bool)
  | seq (a b : Regex)
  | alt (a b : Regex)
  | opt (a : Regex)
  | group (i : Nat) (a : Regex)
  | bol
  | eol

/-- Capture bindings, the latest first. -/
abbrev Caps : Type := List (Nat × List Char)

/-- Greedy `[class]*`: the longest run first, shorter ones on failure of the
continuation `k`. -/
def repStar (p : Char → Bool) (k : List Char → Option Caps) : List Char → Option Caps
  | [] => k []
  | c :: cs =>
    if p c then
      match repStar p k cs with
      | some r => some r
      | none => k (c :: cs)
    else k (c :: cs)

/-- Greedy `[class]+`. -/
def repPlus (p : Char → Bool) (k : List Char → Option Caps) : List Char → Option Caps
  | [] => none
  | c :: cs => if p c then repStar p k cs else none

/-- The backtracking search anchored at the current position: `total` is the
length of the whole text, `s` what is left of it, `k` the continuation. -/
def Regex.run (total : Nat) : Regex → List Char → Caps → (List Char → Caps → Option Caps) → Option Caps
  | Regex.char c, s, caps, k =>
    match s with
    | x :: xs => if x = c then k xs caps else none
    | [] => none
  | Regex.cls p, s, caps, k =>
    match s with
    | x :: xs => if p x then k xs caps else none
    | [] => none
  | Regex.star p, s, caps, k => repStar p (fun rest => k rest caps) s
  | Regex.plus p, s, caps, k => repPlus p (fun rest => k rest caps) s
  | Regex.seq a b, s, caps, k => Regex.run total a s caps (fun s1 caps1 => Regex.run total b s1 caps1 k)
  | Regex.alt a b, s, caps, k =>
    match Regex.run total a s caps k with
    | some r => some r
    | none => Regex.run total b s caps k
  | Regex.opt a, s, caps, k =>
    match Regex.run total a s caps k with
    | some r => some r
    | none => k s caps
  | Regex.group i a, s, caps, k =>
    Regex.run total a s caps (fun s1 caps1 => k s1 ((i, s.take (s.length - s1.length)) :: caps1))
  | Regex.bol, s, caps, k => if s.length = total then k s caps else none
  | Regex.eol, s, caps, k => if s.length = 0 then k s caps else none

/-- The leftmost match: the search is tried from every start in turn. -/
def Regex.search (re : Regex) (total : Nat) : List Char → Option Caps
  | [] => Regex.run total re [] [] (fun _ caps1 => some ((0, []) :: caps1))
  | c :: cs =>
    match Regex.run total re (c :: cs) []
        (fun s1 caps1 => some ((0, (c :: cs).take ((c :: cs).length - s1.length)) :: caps1)) with
    | some r => some r
    | none => Regex.search re total cs

/-- The method `FindStringSubmatch` for a pattern with `groups` capture
groups: nil without a match, else the match and the text of each group
(empty for a group that took no part). -/
def Regex.FindStringSubmatch (re : Regex) (groups : Nat) (s : String) : List String :=
  match Regex.search re s.data.length s.data with
  | none => []
  | some caps => (List.range (groups + 1)).map (fun i => String.mk ((caps.lookup i).getD []))

/-- A literal text as a pattern. -/
def Regex.lit : List Char → Regex
  | [] => Regex.star (fun _ => false)
  | [c] => Regex.char c
  | c :: cs => Regex.seq (Regex.char c) (Regex.lit cs)

/-- The class `\d`. -/
def reDigit (c : Char) : Bool := decide (48 ≤ c.toNat ∧ c.toNat ≤ 57)

/-- The class `\s`: tab, line feed, form feed, carriage return, space. -/
def reSpace (c : Char) : Bool :=
  decide (c.toNat = 9 ∨ c.toNat = 10 ∨ c.toNat = 12 ∨ c.toNat = 13 ∨ c.toNat = 32)

/-- The class `[\d\-\.]`. -/
def reRecord (c : Char) : Bool := reDigit c || decide (c = '-') || decide (c = '.')

/-- The class `[^\)]`. -/
def reNotParen (c : Char) : Bool := !decide (c = ')')

/-- The class `[^,]`. -/
def reNotComma (c : Char) : Bool := !decide (c = ',')

/-- The class `[^/]`. -/
def reNotSlash (c : Char) : Bool := !decide (c = '/')

/-- The dot: any character but a line feed. -/
def reDot (c : Char) : Bool := !decide (c = '\n')

/-- The piece `\([^\)]+\)\s+` of `nhlRankRE`, the prior rank in parentheses. -/
def nhlPriorRE : Regex :=
  Regex.seq (Regex.char '(')
  (Regex.seq (Regex.plus reNotParen) (Regex.seq (Regex.char ')') (Regex.plus reSpace)))

/-- The piece `,\s+[\d\-\.]+` of `nhlRankRE`, the won-lost record. -/
def nhlRecordRE : Regex :=
  Regex.seq (Regex.char ',') (Regex.seq (Regex.plus reSpace) (Regex.plus reRecord))

/-- The pattern `nhlRankRE`:
`^(\d+)\.\s+(?:\([^\)]+\)\s+){0,1}([^,]+)(?:,\s+[\d\-\.]+){0,1}\s*$`. -/
def nhlRankRE : Regex :=
  Regex.seq Regex.bol
  (Regex.seq (Regex.group 1 (Regex.plus reDigit))
  (Regex.seq (Regex.char '.')
  (Regex.seq (Regex.plus reSpace)
  (Regex.seq (Regex.opt nhlPriorRE)
  (Regex.seq (Regex.group 2 (Regex.plus reNotComma))
  (Regex.seq (Regex.opt nhlRecordRE)
  (Regex.seq (Regex.star reSpace) Regex.eol)))))))

/-- The pattern `nbaRankRE`: `^(\d+)\.\s+(.*)`; the dot stops at a line feed. -/
def nbaRankRE : Regex :=
  Regex.seq Regex.bol
  (Regex.seq (Regex.group 1 (Regex.plus reDigit))
  (Regex.seq (Regex.char '.')
  (Regex.seq (Regex.plus reSpace)
  (Regex.group 2 (Regex.star reDot)))))

/-- The pattern `nbaWeekFromURLRE`: `week\-(\d+)\-rankings`. -/
def nbaWeekFromURLRE : Regex :=
  Regex.seq (Regex.lit "week-".data)
  (Regex.seq (Regex.group 1 (Regex.plus reDigit)) (Regex.lit "-rankings".data))

/-- The pattern `nbaWeekIDRE`: `^(?:Week ){0,1}(\d+|Camp)`. -/
def nbaWeekIDRE : Regex :=
  Regex.seq Regex.bol
  (Regex.seq (Regex.opt (Regex.lit "Week ".data))
  (Regex.group 1 (Regex.alt (Regex.plus reDigit) (Regex.lit "Camp".data))))

/-- The pattern `nhlWeekFromURLRE`: `/page/powerrankings\-([^/]+)/`. -/
def nhlWeekFromURLRE : Regex :=
  Regex.seq (Regex.lit "/page/powerrankings-".data)
  (Regex.seq (Regex.group 1 (Regex.plus reNotSlash)) (Regex.char '/'))

/-- The NHL ranking-line parse of `ScrapeRankingPage`: `nhlRankRE`, then `I`
on the first group; `none` when the line does not match. -/
def nhlParseLine (text : String) : Option RankItem :=
  let ms := nhlRankRE.FindStringSubmatch 2 text
  if ms.length = 3 then some { Rank := I (ms.getD 1 ""), Team := ms.getD 2 "" } else none

/-- The NBA ranking-line parse of `ScrapeRankingPage`. -/
def nbaParseLine (text : String) : Option RankItem :=
  let ms := nbaRankRE.FindStringSubmatch 2 text
  if ms.length = 3 then some { Rank := I (ms.getD 1 ""), Team := ms.getD 2 "" } else none

/-! ## Definitions: package encoding/csv and the report export -/

/-- The function `unicode.IsSpace`. -/
def unicodeIsSpace (r : Char) : Bool :=
  decide (r.toNat = 9 ∨ r.toNat = 10 ∨ r.toNat = 11 ∨ r.toNat = 12 ∨ r.toNat = 13 ∨
    r.toNat = 32 ∨ r.toNat = 133 ∨ r.toNat = 160 ∨ r.toNat = 5760 ∨
    (8192 ≤ r.toNat ∧ r.toNat ≤ 8202) ∨ r.toNat = 8232 ∨ r.toNat = 8233 ∨ r.toNat = 8239 ∨
    r.toNat = 8287 ∨ r.toNat = 12288)

/-- The method `fieldNeedsQuotes` of `csv.Writer` with the default comma. -/
def fieldNeedsQuotes (field : String) : Bool :=
  if field = "" then false
  else if field = "\\." ∨ ',' ∈ field.data ∨ '"' ∈ field.data ∨ '\r' ∈ field.data ∨
      '\n' ∈ field.data then true
  else match field.data with
    | r1 :: _ => unicodeIsSpace r1
    | [] => false

/-- One field as `csv.Writer.Write` renders it (no CRLF): as is, or between
double quotes with every double quote doubled. -/
def csvField (field : String) : String :=
  if fieldNeedsQuotes field then
    String.mk ('"' :: (field.data.flatMap (fun c => if c = '"' then ['"', '"'] else [c]) ++ ['"']))
  else field

/-- One record as `csv.Writer.Write` renders it: the fields separated by
commas, then a line feed. -/
def csvRecord (record : List String) : String :=
  String.intercalate "," (record.map csvField) ++ "\n"

/-- The method `csv.Writer.Write` on a writer over a `bytes.Buffer`, which
cannot fail: the record is appended to the buffer. -/
def csvWrite (outb : String) (record : List String) : String := outb ++ csvRecord record

/-- The CSV encoding of a list of rows. -/
def csvEncoding : List (List String) → String
  | [] => ""
  | row :: rows => csvRecord row ++ csvEncoding rows

/-- The struct `ScraperUtil`; the logger is the list of messages printed. -/
structure ScraperUtil where
  league : String
  dbPath : String
  season : SeasonDB
  cache : HttpQueryCache
  logBuffer : List String

/-- The method `ScraperUtil.ToCSV`: the bytes (`none` for nil) and the error
(`none` for nil). -/
def ScraperUtil.ToCSV (ss : ScraperUtil) (weekID : String) : Option String × Option String :=
  match ss.season.GetWeekItem weekID with
  | none => (none, some ("week not found: '" ++ weekID ++ "'"))
  | some weekItem =>
    let header := ["league", "week", "team", "rank"]
    let outb := csvWrite "" header
    let outb := weekItem.Rankings.foldl
      (fun outb v => csvWrite outb [ss.league, weekID, v.Team, S v.Rank]) outb
    (some outb, none)

/-! ## Definitions: the scrapers (prlib.go, nba.go, nhl.go)

The HTML parser and selector engine (goquery) are outside the program. A
parsed page is the record `Doc` of what the selections of the program find
in it, and `Env.parseDoc` stands for `goquery.NewDocumentFromReader`. -/

/-- An element found by `span[class=link-text]`: its text, whether its parent
is an `a` element, and the `href` of the parent when it has one. -/
structure LinkSpan where
  text : String
  parentIsAnchor : Bool
  href : Option String

/-- An element found by `p em strong`: its text, and text and `href` of each
`a` child of its `p` ancestors. -/
structure TocBlock where
  text : String
  anchors : List (String × Option String)

/-- An element found by `#article-feed article .container b`: the number of
its `a` children and its text. -/
structure BoldItem where
  anchors : Nat
  text : String

/-- An `h2` child of a `div[class=article-body]`: its text and inner HTML. -/
structure Heading where
  text : String
  html : String

/-- A parsed page, as the selections of the program see it. -/
structure Doc where
  linkSpans : List LinkSpan
  tocBlocks : List TocBlock
  articleBolds : List BoldItem
  articleBodies : List (List Heading)

/-- A Go `map[string]string`: keys are unique, the order is of no meaning. -/
abbrev URLMap : Type := List (String × String)

/-- The assignment `m[k] = v`. -/
def mapSet : URLMap → String → String → URLMap
  | [], k, v => [(k, v)]
  | (k1, v1) :: rest, k, v => if k1 = k then (k, v) :: rest else (k1, v1) :: mapSet rest k v

/-- The read `m[k]`, the empty string for a missing key. -/
def mapGet (m : URLMap) (k : String) : String := (m.lookup k).getD ""

/-- What the program takes from its surroundings: the network, the HTML
parser, the clock (the text `NormalizeDate(time.Now())` gives at the n-th
reading), `sort.Slice`, the order in which `range` visits a map, and
`json.Marshal` of a season. -/
structure Env where
  net : Network
  parseDoc : Bytes → Doc
  clock : Nat → String
  srt : SliceSort
  mapOrder : URLMap → URLMap
  marshalSeason : SeasonDB → String

/-- The constant `defaultUA`. -/
def defaultUA : String :=
  "Mozilla/5.0 (Windows NT 6.1; WOW64) AppleWebKit/537.36 (KHTML, like Gecko) Chrome/56.0.2924.87 Safari/537.36"

/-- The function `errex`: nil stays nil, an error is wrapped. A panic is no
error value and never reaches `errex`; it passes every caller unchanged, and
the model lets it pass here. -/
def errex (step context : String) : Option GoError → Option GoError
  | none => none
  | some (GoError.err e) => some (GoError.err (step ++ ": " ++ context ++ ": " ++ e))
  | some (GoError.panic e) => some (GoError.panic e)

/-- The function `normalizeESPNURL`. -/
def normalizeESPNURL (url : String) : String :=
  if (url.data.map Char.toLower).take 7 = "http://".data then url
  else "http://www.espn.com" ++ url

/-- The method `ScraperUtil.NewGoQuery`; parsing bytes held in memory does
not fail. -/
def ScraperUtil.NewGoQuery (env : Env) (ss : ScraperUtil) (w : World) (url : String) :
    Except GoError Doc × ScraperUtil × World :=
  match ss.cache.Get env.net w url defaultUA with
  | (Except.error e, qc, w1) => (Except.error e, { ss with cache := qc }, w1)
  | (Except.ok html, qc, w1) => (Except.ok (env.parseDoc html), { ss with cache := qc }, w1)

/-- The method `ScraperUtil.UpdateDB`: the season document is overwritten
(`json.Marshal` of a season does not fail). -/
def ScraperUtil.UpdateDB (env : Env) (ss : ScraperUtil) (w : World) : Option GoError × World :=
  let b := env.marshalSeason ss.season
  let w1 := { w with dbWrites := w.dbWrites + 1 }
  match w.dbWriteError with
  | some e => (errex "UpdateDB" ("write to " ++ ss.dbPath) (some (GoError.err e)), w1)
  | none => (none, { w1 with dbFile := some b })

/-- The loop of `ScrapeHomePage` over the link spans: the week id and the
normalized url of the first span titled `title` under an anchor whose `href`
matches `re`. -/
def homeLoop (title : String) (re : Regex) : List LinkSpan → Option (String × String)
  | [] => none
  | item :: rest =>
    if item.text = title ∧ item.parentIsAnchor = true then
      match item.href with
      | some href =>
        if (re.FindStringSubmatch 1 href).length = 2 then
          some ((re.FindStringSubmatch 1 href).getD 1 "", normalizeESPNURL href)
        else homeLoop title re rest
      | none => homeLoop title re rest
    else homeLoop title re rest

/-- The struct `NBAScraper`. -/
structure NBAScraper where
  scraper : ScraperUtil
  currentWeek : String
  weekURLMap : URLMap
  forceUpdate : Bool

/-- The method `NBAScraper.ScrapeHomePage`. -/
def NBAScraper.ScrapeHomePage (env : Env) (pr : NBAScraper) (w : World) :
    Option GoError × NBAScraper × World :=
  let pr := { pr with currentWeek := "", weekURLMap := [] }
  match pr.scraper.NewGoQuery env w "http://www.espn.com/nba/" with
  | (Except.error e, sc, w1) =>
    (errex "get" "http://www.espn.com/nba/" (some e), { pr with scraper := sc }, w1)
  | (Except.ok doc, sc, w1) =>
    match homeLoop "Rankings" nbaWeekFromURLRE doc.linkSpans with
    | some (week, href) =>
      (none, { pr with scraper := sc, currentWeek := week,
                       weekURLMap := mapSet pr.weekURLMap week href }, w1)
    | none => (none, { pr with scraper := sc }, w1)

/-- The inner loop of `scrapeWeekTOC` over the anchors after the marker. -/
def tocAnchors : URLMap → List (String × Option String) → URLMap
  | m, [] => m
  | m, (text, href) :: rest =>
    if (nbaWeekIDRE.FindStringSubmatch 1 text).length ≠ 2 then tocAnchors m rest
    else tocAnchors
      (mapSet m ((nbaWeekIDRE.FindStringSubmatch 1 text).getD 1 "")
        (normalizeESPNURL (href.getD ""))) rest

/-- The method `NBAScraper.scrapeWeekTOC`; its error is always nil. -/
def NBAScraper.scrapeWeekTOC (pr : NBAScraper) (doc : Doc) : NBAScraper :=
  match doc.tocBlocks.find? (fun b => decide (b.text = "Previous rankings:")) with
  | some b => { pr with weekURLMap := tocAnchors pr.weekURLMap b.anchors }
  | none => pr

/-- The loop of `NBAScraper.ScrapeRankingPage` over the bold elements: the
rank items built and the messages logged. -/
def nbaRankItems : List RankItem × List String → List BoldItem → List RankItem × List String
  | acc, [] => acc
  | acc, item :: rest =>
    if item.anchors ≠ 0 then
      match nbaParseLine item.text with
      | some rankItem => nbaRankItems (acc.1 ++ [rankItem], acc.2) rest
      | none =>
        nbaRankItems (acc.1, acc.2 ++
          ["unexpected text in (presumably) rank text: '" ++ item.text ++ "'"]) rest
    else nbaRankItems acc rest

/-- The method `NBAScraper.ScrapeRankingPage`. -/
def NBAScraper.ScrapeRankingPage (env : Env) (pr : NBAScraper) (w : World) (week url : String) :
    Option GoError × NBAScraper × World :=
  match pr.scraper.NewGoQuery env w url with
  | (Except.error e, sc, w1) => (errex "get" url (some e), { pr with scraper := sc }, w1)
  | (Except.ok doc, sc, w1) =>
    let pr := { pr with scraper := sc }
    let pr := if pr.weekURLMap.length = 1 then pr.scrapeWeekTOC doc else pr
    if pr.forceUpdate = false ∧ week ≠ pr.currentWeek ∧
        (pr.scraper.season.GetWeekItem week).isSome = true then (none, pr, w1)
    else
      let scrapeTime := env.clock w1.clockReads
      let w2 := { w1 with clockReads := w1.clockReads + 1 }
      let found := nbaRankItems ([], []) doc.articleBolds
      let weekItem : WeekItem := { ScrapeDate := scrapeTime, WeekID := week, Rankings := found.1 }
      (none,
        { pr with scraper := { pr.scraper with
            season := pr.scraper.season.UpdateWeekItem env.srt weekItem,
            logBuffer := pr.scraper.logBuffer ++ found.2 } }, w2)

/-- The loop of `NBAScraper.Scrape` over the week-to-url map, in the order
`range` visits it. -/
def NBAScraper.scrapeWeeks (env : Env) :
    NBAScraper → World → URLMap → Option GoError × NBAScraper × World
  | pr, w, [] => (none, pr, w)
  | pr, w, (k, v) :: rest =>
    if k = pr.currentWeek then NBAScraper.scrapeWeeks env pr w rest
    else
      match pr.ScrapeRankingPage env w k v with
      | (some e, pr1, w1) => (errex ("week " ++ k) v (some e), pr1, w1)
      | (none, pr1, w1) => NBAScraper.scrapeWeeks env pr1 w1 rest

/-- The method `NBAScraper.Scrape`. -/
def NBAScraper.Scrape (env : Env) (pr : NBAScraper) (w : World) :
    Option GoError × NBAScraper × World :=
  match pr.ScrapeHomePage env w with
  | (some e, pr1, w1) =>
    (errex "scrape nba page" "get current rankings url" (some e), pr1, w1)
  | (none, pr1, w1) =>
    if pr1.weekURLMap.length = 0 then
      (errex "scrape nba page" "get current rankings url" (some (GoError.err "Rankings href not found")),
        pr1, w1)
    else
      match pr1.ScrapeRankingPage env w1 pr1.currentWeek (mapGet pr1.weekURLMap pr1.currentWeek) with
      | (some e, pr2, w2) =>
        (errex ("week " ++ pr1.currentWeek) (mapGet pr1.weekURLMap pr1.currentWeek) (some e),
          pr2, w2)
      | (none, pr2, w2) =>
        match NBAScraper.scrapeWeeks env pr2 w2 (env.mapOrder pr2.weekURLMap) with
        | (some e, pr3, w3) => (some e, pr3, w3)
        | (none, pr3, w3) => ((pr3.scraper.UpdateDB env w3).1, pr3, (pr3.scraper.UpdateDB env w3).2)

/-- The struct `NHLScraper`. -/
structure NHLScraper where
  scraper : ScraperUtil
  currentWeek : String
  weekURLMap : URLMap
  forceUpdate : Bool

/-- The method `NHLScraper.ScrapeHomePage`. -/
def NHLScraper.ScrapeHomePage (env : Env) (pr : NHLScraper) (w : World) :
    Option GoError × NHLScraper × World :=
  let pr := { pr with currentWeek := "", weekURLMap := [] }
  match pr.scraper.NewGoQuery env w "http://www.espn.com/nhl/" with
  | (Except.error e, sc, w1) =>
    (errex "get" "http://www.espn.com/nhl/" (some e), { pr with scraper := sc }, w1)
  | (Except.ok doc, sc, w1) =>
    match homeLoop "Power Rankings" nhlWeekFromURLRE doc.linkSpans with
    | some (week, href) =>
      (none, { pr with scraper := sc, currentWeek := week,
                       weekURLMap := mapSet pr.weekURLMap week href }, w1)
    | none => (none, { pr with scraper := sc }, w1)

/-- The inner loop of `NHLScraper.ScrapeRankingPage` over the `h2` children
of one article body. -/
def nhlHeadings : List RankItem × List String → List Heading → List RankItem × List String
  | acc, [] => acc
  | acc, item :: rest =>
    match nhlParseLine item.text with
    | some rankItem => nhlHeadings (acc.1 ++ [rankItem], acc.2) rest
    | none =>
      nhlHeadings (acc.1, acc.2 ++
        ["unexpected text in (presumably) rank text: '" ++ item.html ++ "'"]) rest

/-- The outer loop of `NHLScraper.ScrapeRankingPage`: article bodies are
visited until one has yielded a rank item. -/
def nhlRankItems : List RankItem × List String → List (List Heading) → List RankItem × List String
  | acc, [] => acc
  | acc, body :: rest =>
    if (nhlHeadings acc body).1.length = 0 then nhlRankItems (nhlHeadings acc body) rest
    else nhlHeadings acc body

/-- The method `NHLScraper.ScrapeRankingPage`. -/
def NHLScraper.ScrapeRankingPage (env : Env) (pr : NHLScraper) (w : World) (week url : String) :
    Option GoError × NHLScraper × World :=
  match pr.scraper.NewGoQuery env w url with
  | (Except.error e, sc, w1) => (errex "get" url (some e), { pr with scraper := sc }, w1)
  | (Except.ok doc, sc, w1) =>
    let pr := { pr with scraper := sc }
    if pr.forceUpdate = false ∧ week ≠ pr.currentWeek ∧
        (pr.scraper.season.GetWeekItem week).isSome = true then (none, pr, w1)
    else
      let scrapeTime := env.clock w1.clockReads
      let w2 := { w1 with clockReads := w1.clockReads + 1 }
      let found := nhlRankItems ([], []) doc.articleBodies
      let weekItem : WeekItem := { ScrapeDate := scrapeTime, WeekID := week, Rankings := found.1 }
      (none,
        { pr with scraper := { pr.scraper with
            season := pr.scraper.season.UpdateWeekItem env.srt weekItem,
            logBuffer := pr.scraper.logBuffer ++ found.2 } }, w2)

/-- The method `NHLScraper.Scrape`. -/
def NHLScraper.Scrape (env : Env) (pr : NHLScraper) (w : World) :
    Option GoError × NHLScraper × World :=
  match pr.ScrapeHomePage env w with
  | (some e, pr1, w1) =>
    (errex "scrape nba page" "get current rankings url" (some e), pr1, w1)
  | (none, pr1, w1) =>
    if pr1.weekURLMap.length = 0 then
      (errex "scrape nhl page" "get current rankings url" (some (GoError.err "Rankings href not found")),
        pr1, w1)
    else
      match pr1.ScrapeRankingPage env w1 pr1.currentWeek (mapGet pr1.weekURLMap pr1.currentWeek) with
      | (some e, pr2, w2) =>
        (errex ("week " ++ pr1.currentWeek) (mapGet pr1.weekURLMap pr1.currentWeek) (some e),
          pr2, w2)
      | (none, pr2, w2) => ((pr2.scraper.UpdateDB env w2).1, pr2, (pr2.scraper.UpdateDB env w2).2)

/-- The `Get` calls made between the world `w` and the later world `w1`. -/
def newFetches (w w1 : World) : List (String × FetchOutcome) :=
  w1.fetches.drop w.fetches.length

/-- The outcome of a fetch as its result tells it. -/
def outcomeOf {α : Type} : Except GoError α → FetchOutcome
  | Except.ok _ => FetchOutcome.body
  | Except.error (GoError.err _) => FetchOutcome.failed
  | Except.error (GoError.panic _) => FetchOutcome.panicked

/-- Between `w` and `w1` the `Get` calls `tr` were made and the season
document was neither written nor changed. -/
def Frame (w w1 : World) (tr : List (String × FetchOutcome)) : Prop :=
  w1.fetches = w.fetches ++ tr ∧ w1.dbFile = w.dbFile ∧ w1.dbWrites = w.dbWrites ∧
    w1.dbWriteError = w.dbWriteError

/-- The end `err` of a step is the end of its one fetch: nil after a body,
an error after a failed fetch, a panic after a panic. -/
def EndsAs (err : Option GoError) (o : FetchOutcome) : Prop :=
  match o with
  | FetchOutcome.body => err = none
  | FetchOutcome.failed => ∃ m, err = some (GoError.err m)
  | FetchOutcome.panicked => ∃ m, err = some (GoError.panic m)

/-- A run that ended with `err` after the `Get` calls `tr`: every call but
the last returned a body; all did when `err` is nil; a failed call makes
`err` an error, a panicked call makes it a panic. -/
def StopsAtFailure (err : Option GoError) (tr : List (String × FetchOutcome)) : Prop :=
  (∀ e ∈ tr.dropLast, e.2 = FetchOutcome.body) ∧
  (err = none → ∀ e ∈ tr, e.2 = FetchOutcome.body) ∧
  (∀ e ∈ tr, e.2 = FetchOutcome.failed → ∃ m, err = some (GoError.err m)) ∧
  (∀ e ∈ tr, e.2 = FetchOutcome.panicked → ∃ m, err = some (GoError.panic m))

/-- The number a run of decimal digits writes, continuing from `n`. -/
def decimalValueFrom : List Char → Nat → Nat
  | [], n => n
  | c :: cs, n => decimalValueFrom cs (n * 10 + (c.toNat - 48))

/-- The number a run of decimal digits writes. -/
def decimalValue (ds : List Char) : Nat := decimalValueFrom ds 0

/-- An id the specification calls numeric: a non-empty run of decimal digits,
what the week patterns of the pages capture with `\d+`. -/
def isNumericID (id : String) : Bool := !id.data.isEmpty && id.data.all reDigit

/-- The week order rule as the specification words it: a non-numeric id
sorts before every numeric id, two non-numeric ids compare lexically, two
numeric ids compare by the numbers they write. -/
def weekOrderRule (a b : String) : Bool :=
  if isNumericID a then
    if isNumericID b then decide (decimalValue a.data < decimalValue b.data) else false
  else
    if isNumericID b then true else stringLess a.data b.data

/-- An id the comparator of `SortWeekItems` and the rule read alike: a run
of digits that writes a number below 2^62, or a text with a character that
is neither a digit nor a sign. -/
def ordinaryID (id : String) : Bool :=
  (isNumericID id && decide (decimalValue id.data < 4611686018427387904)) ||
    id.data.any (fun c => !reDigit c && decide (c ≠ '+') && decide (c ≠ '-'))

/-- The text of an optional prior-rank token: the token in parentheses and
the blanks after it. -/
def nhlPriorText : Option (List Char × List Char) → List Char
  | some (tok, ws2) => '(' :: (tok ++ ')' :: ws2)
  | none => []

/-- The text of an optional record suffix: a comma, blanks, the record. -/
def nhlRecordText : Option (List Char × List Char) → List Char
  | some (ws3, rec) => ',' :: (ws3 ++ rec)
  | none => []

/-- A ranking line in the shape of the NHL pages: the rank digits `r`, a
period, the blanks `ws1`, optionally a parenthesised prior-rank token with
the blanks after it, the team name `t`, optionally a comma, blanks and a
won-lost record. -/
def nhlLine (r ws1 : List Char) (prior : Option (List Char × List Char)) (t : List Char)
    (record : Option (List Char × List Char)) : List Char :=
  r ++ '.' :: (ws1 ++ (nhlPriorText prior ++ (t ++ nhlRecordText record)))

/-- A week record with two entries out of rank order. -/
def exampleWeek (id : String) : WeekItem :=
  { WeekID := id, ScrapeDate := "2017-03-01 10:00:00",
    Rankings := [{ Team := "San Antonio Spurs", Rank := 2 }, { Team := "Golden State Warriors", Rank := 1 }] }

/-- A world whose log file holds two recorded payloads. -/
def exampleReplayWorld : World :=
  { cacheFile := some (recordLog [[72, 105], [1, 2, 3, 4]]), debugFile := none, dbFile := none,
    dbWriteError := none, requests := [], fetches := [], clockReads := 0, dbWrites := 0 }

/-- A network on which every request fails. -/
def noNetwork : Network := fun _ _ _ => Response.failed "no route to host"

/-- A scraper state holding the example season. -/
def exampleScraperUtil : ScraperUtil :=
  { league := "NBA", dbPath := "db/NBA.json",
    season := { League := "NBA", WeekItems := [exampleWeek "Camp", exampleWeek "1"] },
    cache := { CachePath := "httpcache/NBA.txt", history := [] }, logBuffer := [] }

/-- A world without files, nothing done yet. -/
def exampleWorld : World :=
  { cacheFile := none, debugFile := none, dbFile := none, dbWriteError := none, requests := [],
    fetches := [], clockReads := 0, dbWrites := 0 }

/-- A ranking page with two NBA lines and one NHL line. -/
def exampleDoc : Doc :=
  { linkSpans := [], tocBlocks := [],
    articleBolds := [{ anchors := 1, text := "2. Houston Rockets" },
                     { anchors := 1, text := "1. Golden State Warriors" }],
    articleBodies := [[{ text := "1. (2) Chicago Blackhawks, 42-18-5", html := "" }]] }

/-- Surroundings in which every request is answered with the same page. -/
def exampleEnv : Env :=
  { net := fun _ _ _ => Response.body [60], parseDoc := fun _ => exampleDoc,
    clock := fun _ => "2017-03-08 09:30:00", srt := goInsertionSort, mapOrder := fun m => m,
    marshalSeason := fun _ => "" }

/-- Surroundings in which every request fails. -/
def offlineEnv : Env := { exampleEnv with net := noNetwork }

/-- Surroundings in which `http.NewRequest` rejects every url. -/
def badURLEnv : Env := { exampleEnv with net := fun _ _ _ => Response.badRequest "invalid URL escape" }

/-- An NBA scraper in record mode, the example season loaded, week 2 current. -/
def exampleNBA : NBAScraper :=
  { scraper := exampleScraperUtil, currentWeek := "2",
    weekURLMap := [("2", "http://www.espn.com/nba/week-2-rankings"), ("1", "http://www.espn.com/nba/week-1-rankings")],
    forceUpdate := false }

/-- An NHL scraper in record mode, the example season loaded, week 2 current. -/
def exampleNHL : NHLScraper :=
  { scraper := exampleScraperUtil, currentWeek := "2",
    weekURLMap := [("2", "http://www.espn.com/nhl/page/powerrankings-2/x")], forceUpdate := false }

/-- The week ids of a season, each with its rankings. -/
def SeasonDB.rankingsByWeek (sdb : SeasonDB) : List (String × List RankItem) :=
  sdb.WeekItems.map (fun wi => (wi.WeekID, wi.Rankings))

/-- Four recorded pages, told apart by their first byte: the NBA home page
with the Rankings link of week 3, the page of week 3 with links to weeks 1
and 2, and two older ranking pages. -/
def replayPages (html : Bytes) : Doc :=
  match html with
  | 0 :: _ =>
    { linkSpans := [{ text := "Rankings", parentIsAnchor := true,
                      href := some "/nba/story/_/id/1/week-3-rankings" }],
      tocBlocks := [], articleBolds := [], articleBodies := [] }
  | 1 :: _ =>
    { linkSpans := [],
      tocBlocks := [{ text := "Previous rankings:",
                      anchors := [("Week 1", some "/nba/week-1"), ("Week 2", some "/nba/week-2")] }],
      articleBolds := [{ anchors := 1, text := "1. Golden State Warriors" }],
      articleBodies := [] }
  | 2 :: _ =>
    { linkSpans := [], tocBlocks := [],
      articleBolds := [{ anchors := 1, text := "1. San Antonio Spurs" }], articleBodies := [] }
  | _ =>
    { linkSpans := [], tocBlocks := [],
      articleBolds := [{ anchors := 1, text := "1. Houston Rockets" }], articleBodies := [] }

/-- The world after a recorded run that fetched the four pages in order. -/
def replayWorld : World :=
  { exampleWorld with cacheFile := some (recordLog [[0], [1], [2], [3]]) }

/-- Surroundings of a replay in which `range` visits the map in stored order. -/
def replayEnvForward : Env := { offlineEnv with parseDoc := replayPages }

/-- Surroundings of a replay in which `range` visits the map in the opposite
order. -/
def replayEnvBackward : Env :=
  { offlineEnv with parseDoc := replayPages, mapOrder := fun m => m.reverse }

/-- The scraper `NewNBAScraper(false, true)` builds over `replayWorld`, with
an empty season loaded. -/
def replayNBA : NBAScraper :=
  { scraper := { league := "NBA", dbPath := "db/NBA.json", season := NewSeasonDB "NBA",
                 cache := (NewHttpQueryCache "httpcache/NBA.txt" true replayWorld).1,
                 logBuffer := [] },
    currentWeek := "", weekURLMap := [], forceUpdate := false }

/-- A season of two weeks. -/
def exampleSeason : SeasonDB :=
  { League := "NBA", WeekItems := [exampleWeek "Camp", exampleWeek "1"] }

/-- The NHL home page with a Power Rankings link whose `href` holds the
escape `%zz`, which is not a percent escape. -/
def rejectedDoc : Doc :=
  { linkSpans := [{ text := "Power Rankings", parentIsAnchor := true,
                    href := some "/nhl/page/powerrankings-%zz/x" }],
    tocBlocks := [], articleBolds := [], articleBodies := [] }

/-- Surroundings in which every page is `rejectedDoc`, the network answers
every request it is sent, and `http.NewRequest` rejects the one url that
holds the escape `%zz`, as `url.Parse` does. -/
def rejectedEnv : Env :=
  { exampleEnv with
    net := fun _ url _ =>
      if url = "http://www.espn.com/nhl/page/powerrankings-%zz/x" then
        Response.badRequest "invalid URL escape \"%zz\""
      else Response.body [60],
    parseDoc := fun _ => rejectedDoc }

/-- A world in which the season document was saved by an earlier run. -/
def savedWorld : World := { exampleWorld with dbFile := some "saved", cacheFile := some "" }

/-- The scraper `NewNHLScraper(false, false)` builds, with an empty season
loaded. -/
def freshNHL : NHLScraper :=
  { scraper := { league := "NHL", dbPath := "db/NHL.json", season := NewSeasonDB "NHL",
                 cache := (NewHttpQueryCache "httpcache/NHL.txt" false savedWorld).1,
                 logBuffer := [] },
    currentWeek := "", weekURLMap := [], forceUpdate := false }

/-! ## Theorems -/

/-! ### Package sort -/

lemma insertLeft_perm {α : Type} (less : α → α → Bool) (x : α) (l : List α) :
    List.Perm (insertLeft less x l) (x :: l) := by
  induction l with
  | nil => simp [insertLeft]
  | cons y ys ih =>
    unfold insertLeft
    split_ifs
    · exact (List.Perm.cons y ih).trans (List.Perm.swap x y ys)
    · exact List.Perm.refl _

lemma insertionLoop_perm {α : Type} (less : α → α → Bool) (xs done : List α) :
    List.Perm (insertionLoop less done xs) (done.reverse ++ xs) := by
  induction xs generalizing done with
  | nil => simpa [insertionLoop] using (List.reverse_perm done).symm
  | cons x rest ih =>
    unfold insertionLoop
    refine (ih _).trans ?_
    have h1 : List.Perm (insertLeft less x done).reverse (x :: done).reverse :=
      (List.reverse_perm _).trans ((insertLeft_perm less x done).trans (List.reverse_perm _).symm)
    have h2 := List.Perm.append_right rest h1
    simpa using h2

lemma insertLeft_sorted {α : Type} (less : α → α → Bool) (hc : LessContract less) (x : α)
    (l : List α) (hl : List.Pairwise (fun a b => less a b = false) l) :
    List.Pairwise (fun a b => less a b = false) (insertLeft less x l) := by
  obtain ⟨hirr, htr, hneg⟩ := hc
  induction l with
  | nil => simp [insertLeft]
  | cons y ys ih =>
    rw [List.pairwise_cons] at hl
    unfold insertLeft
    split_ifs with hxy
    · rw [List.pairwise_cons]
      refine ⟨?_, ih hl.2⟩
      intro z hz
      rcases List.mem_cons.1 ((List.Perm.mem_iff (insertLeft_perm less x ys)).1 hz) with hz1 | hz1
      · subst hz1
        cases hyx : less y z with
        | false => rfl
        | true => have := htr z y z hxy hyx; rw [hirr] at this; exact absurd this (by simp)
      · exact hl.1 z hz1
    · have hxy2 : less x y = false := by simpa using hxy
      rw [List.pairwise_cons]
      refine ⟨?_, List.pairwise_cons.2 hl⟩
      intro z hz
      rcases List.mem_cons.1 hz with rfl | hz1
      · exact hxy2
      · exact hneg x y z hxy2 (hl.1 z hz1)

lemma insertionLoop_sorted {α : Type} (less : α → α → Bool) (hc : LessContract less)
    (xs done : List α) (hd : List.Pairwise (fun a b => less a b = false) done) :
    List.Pairwise (fun a b => less a b = false) (insertionLoop less done xs) := by
  induction xs generalizing done with
  | nil => simpa [insertionLoop] using hd
  | cons x rest ih =>
    unfold insertionLoop
    exact ih _ (insertLeft_sorted less hc x done hd)

/-- The insertion sort of package sort meets the contract of `sort.Slice`. -/
lemma goInsertionSort_isSliceSort : IsSliceSort goInsertionSort := by
  intro α less xs
  refine ⟨?_, ?_⟩
  · unfold goInsertionSort insertionSort_func
    refine (List.reverse_perm _).trans ?_
    simpa using insertionLoop_perm less xs []
  · intro hc
    unfold goInsertionSort insertionSort_func
    rw [List.pairwise_reverse]
    exact insertionLoop_sorted less hc xs [] List.Pairwise.nil

/-! ### Package strconv on digit runs -/

lemma decimalValueFrom_ge (ds : List Char) : ∀ n, n ≤ decimalValueFrom ds n := by
  induction ds with
  | nil => intro n; exact le_refl _
  | cons c cs ih =>
    intro n
    have h := ih (n * 10 + (c.toNat - 48))
    show n ≤ decimalValueFrom cs (n * 10 + (c.toNat - 48))
    omega

lemma parseUintLoop_digits (M : Nat) (hM : M ≤ 18446744073709551615) (ds : List Char)
    (hd : ∀ c ∈ ds, reDigit c = true) :
    ∀ n, n ≤ M →
      ParseUintLoop M ds n =
        if decimalValueFrom ds n ≤ M then (decimalValueFrom ds n, none)
        else (18446744073709551615, some NumError.ErrRange) := by
  induction ds with
  | nil =>
    intro n hn
    rw [ParseUintLoop, decimalValueFrom, if_pos hn]
  | cons c cs ih =>
    intro n hn
    have hc : 48 ≤ c.toNat ∧ c.toNat ≤ 57 := by
      have := hd c (List.mem_cons_self c cs)
      simpa [reDigit] using this
    have hcs : ∀ x ∈ cs, reDigit x = true := fun x hx => hd x (List.mem_cons_of_mem c hx)
    have hmax : maxUint64 = 18446744073709551615 := by norm_num [maxUint64]
    have hpow : (2 : Nat) ^ 64 = 18446744073709551616 := by norm_num
    rw [ParseUintLoop, decimalValueFrom, if_pos hc, hmax, hpow]
    have hge := decimalValueFrom_ge cs (n * 10 + (c.toNat - 48))
    by_cases h1 : n ≥ 18446744073709551615 / 10 + 1
    · rw [if_pos h1, if_neg]
      omega
    · rw [if_neg h1]
      have h10 : n * 10 % 18446744073709551616 = n * 10 := Nat.mod_eq_of_lt (by omega)
      simp only [h10]
      by_cases h2 : n * 10 + (c.toNat - 48) < 18446744073709551616
      · have h11 : (n * 10 + (c.toNat - 48)) % 18446744073709551616 =
            n * 10 + (c.toNat - 48) := Nat.mod_eq_of_lt h2
        simp only [h11]
        by_cases h3 : n * 10 + (c.toNat - 48) > M
        · rw [if_pos (Or.inr h3), if_neg (by omega)]
        · rw [if_neg (by omega)]
          exact ih hcs _ (by omega)
      · have h12 : (n * 10 + (c.toNat - 48)) % 18446744073709551616 =
            n * 10 + (c.toNat - 48) - 18446744073709551616 := by
          rw [Nat.mod_eq_sub_mod (by omega)]
          exact Nat.mod_eq_of_lt (by omega)
        simp only [h12]
        rw [if_pos (by omega), if_neg (by omega)]

lemma parseUintLoop_other (M : Nat) (ds : List Char)
    (hd : ∃ c ∈ ds, reDigit c = false) :
    ∀ n, (ParseUintLoop M ds n).2 ≠ none ∧
      ((ParseUintLoop M ds n).2 = some NumError.ErrRange →
        (ParseUintLoop M ds n).1 = 18446744073709551615) := by
  have hmax : maxUint64 = 18446744073709551615 := by norm_num [maxUint64]
  induction ds with
  | nil => obtain ⟨c, hc, _⟩ := hd; simp at hc
  | cons c cs ih =>
    intro n
    rw [ParseUintLoop]
    by_cases hc : 48 ≤ c.toNat ∧ c.toNat ≤ 57
    · have hcs : ∃ x ∈ cs, reDigit x = false := by
        obtain ⟨x, hx, hx2⟩ := hd
        rcases List.mem_cons.1 hx with rfl | hx
        · simp [reDigit, hc] at hx2
        · exact ⟨x, hx, hx2⟩
      rw [if_pos hc]
      by_cases h1 : n ≥ maxUint64 / 10 + 1
      · rw [if_pos h1]
        simp [hmax]
      · rw [if_neg h1]
        simp only []
        split_ifs
        · simp [hmax]
        · exact ih hcs _
    · rw [if_neg hc]
      simp

lemma parseUint_digits (bits M : Nat) (hb : bits ≠ 0)
    (hM : (2 ^ bits % 2 ^ 64 + 2 ^ 64 - 1) % 2 ^ 64 = M) (hM2 : M ≤ 18446744073709551615)
    (c : Char) (cs : List Char) (hd : ∀ x ∈ c :: cs, reDigit x = true) :
    ParseUint (c :: cs) bits =
      if decimalValue (c :: cs) ≤ M then (decimalValue (c :: cs), none)
      else (18446744073709551615, some NumError.ErrRange) := by
  have hloop := parseUintLoop_digits M hM2 (c :: cs) hd 0 (by omega)
  have hlen : ¬ ((c :: cs).length < 1) := by simp
  unfold ParseUint decimalValue
  rw [if_neg hb, if_neg hlen, hM, hloop]

lemma digit_not_sign (c : Char) (hc : reDigit c = true) : ¬ c = '+' ∧ ¬ c = '-' := by
  have h : 48 ≤ c.toNat ∧ c.toNat ≤ 57 := by simpa [reDigit] using hc
  constructor
  · intro e; rw [e] at h; revert h; decide
  · intro e; rw [e] at h; revert h; decide

lemma I_digits (r : List Char) (hne : r ≠ []) (hd : ∀ c ∈ r, reDigit c = true) :
    I (String.mk r) = ((min (decimalValue r) 9223372036854775807 : Nat) : Int) := by
  cases r with
  | nil => exact absurd rfl hne
  | cons c cs =>
    obtain ⟨hplus, hminus⟩ := digit_not_sign c (hd c (List.mem_cons_self c cs))
    have hpu := parseUint_digits 64 18446744073709551615 (by norm_num) (by norm_num)
      (le_refl _) c cs hd
    have hpow : (2 : Nat) ^ (64 - 1) = 9223372036854775808 := by norm_num
    unfold I ParseInt
    simp only [if_true, hplus, hminus, or_self, if_false, decide_False, hpu, hpow]
    by_cases h1 : decimalValue (c :: cs) ≤ 18446744073709551615
    · by_cases h2 : decimalValue (c :: cs) ≥ 9223372036854775808
      · simp [h1, h2]
        omega
      · simp [h1, h2]
        omega
    · simp [h1]
      omega

lemma parseInt63_digits (r : List Char) (hne : r ≠ []) (hd : ∀ c ∈ r, reDigit c = true)
    (hv : decimalValue r < 4611686018427387904) :
    ParseInt (String.mk r) 63 = (((decimalValue r : Nat) : Int), none) := by
  cases r with
  | nil => exact absurd rfl hne
  | cons c cs =>
    obtain ⟨hplus, hminus⟩ := digit_not_sign c (hd c (List.mem_cons_self c cs))
    have hpu := parseUint_digits 63 9223372036854775807 (by norm_num) (by norm_num)
      (by norm_num) c cs hd
    have hpow : (2 : Nat) ^ (63 - 1) = 4611686018427387904 := by norm_num
    unfold ParseInt
    simp only [show (63 : Nat) ≠ 0 by norm_num, if_false, hplus, hminus, or_self, decide_False,
      hpu, hpow]
    have h1 : decimalValue (c :: cs) ≤ 9223372036854775807 := by omega
    have h2 : ¬ decimalValue (c :: cs) ≥ 4611686018427387904 := by omega
    simp [h1, h2]

lemma parseInt63_large (r : List Char) (hne : r ≠ []) (hd : ∀ c ∈ r, reDigit c = true)
    (hv : 4611686018427387904 ≤ decimalValue r) :
    (ParseInt (String.mk r) 63).2 ≠ none := by
  cases r with
  | nil => exact absurd rfl hne
  | cons c cs =>
    obtain ⟨hplus, hminus⟩ := digit_not_sign c (hd c (List.mem_cons_self c cs))
    have hpu := parseUint_digits 63 9223372036854775807 (by norm_num) (by norm_num)
      (by norm_num) c cs hd
    have hpow : (2 : Nat) ^ (63 - 1) = 4611686018427387904 := by norm_num
    unfold ParseInt
    simp only [show (63 : Nat) ≠ 0 by norm_num, if_false, hplus, hminus, or_self, decide_False,
      hpu, hpow]
    by_cases h1 : decimalValue (c :: cs) ≤ 9223372036854775807
    · simp [h1, hv]
    · simp [h1]

lemma parseInt63_other (s : String)
    (h : ∃ c ∈ s.data, reDigit c = false ∧ c ≠ '+' ∧ c ≠ '-') :
    (ParseInt s 63).2 ≠ none := by
  obtain ⟨x, hx, hx1, hx2, hx3⟩ := h
  unfold ParseInt
  cases hs : s.data with
  | nil => simp
  | cons c rest =>
    rw [hs] at hx
    have hbody : ∃ y ∈ (if c = '+' ∨ c = '-' then rest else c :: rest), reDigit y = false := by
      by_cases hsign : c = '+' ∨ c = '-'
      · rw [if_pos hsign]
        rcases List.mem_cons.1 hx with rfl | hx
        · rcases hsign with h | h
          · exact absurd h hx2
          · exact absurd h hx3
        · exact ⟨x, hx, hx1⟩
      · rw [if_neg hsign]
        exact ⟨x, hx, hx1⟩
    have hne : (if c = '+' ∨ c = '-' then rest else c :: rest) ≠ [] := by
      obtain ⟨y, hy, _⟩ := hbody
      exact List.ne_nil_of_mem hy
    have hlen : ¬ ((if c = '+' ∨ c = '-' then rest else c :: rest).length < 1) := by
      have := List.length_pos.2 hne
      omega
    have hloop := parseUintLoop_other ((2 ^ 63 % 2 ^ 64 + 2 ^ 64 - 1) % 2 ^ 64) _ hbody 0
    simp only [show (63 : Nat) ≠ 0 by norm_num, if_false, ParseUint, hlen]
    generalize ParseUintLoop ((2 ^ 63 % 2 ^ 64 + 2 ^ 64 - 1) % 2 ^ 64)
      (if c = '+' ∨ c = '-' then rest else c :: rest) 0 = res at hloop
    obtain ⟨v, e⟩ := res
    simp only at hloop
    cases e with
    | none => exact absurd rfl hloop.1
    | some err =>
      cases err with
      | ErrSyntax => simp
      | ErrRange =>
        have hv := hloop.2 rfl
        subst hv
        by_cases hneg : c = '-' <;> simp [hneg]

/-- The model of `strconv` on sample inputs. -/
theorem strconv_checks :
    I "31" = 31 ∧ I "9223372036854775808" = 9223372036854775807 ∧ I "Camp" = 0 ∧
    S 12 = "12" ∧ S (-3) = "-3" ∧
    ParseInt "10" 63 = (10, none) ∧ ParseInt "+7" 63 = (7, none) ∧
    ParseInt "Camp" 63 = (0, some NumError.ErrSyntax) ∧
    ParseInt "4611686018427387904" 63 = (4611686018427387903, some NumError.ErrRange) := by
  decide

/-! ### The two comparators -/

/-- The comparator of `SortWeekItems` on sample ids. -/
theorem weekLess_checks :
    weekLess "Camp" "1" = true ∧ weekLess "1" "Camp" = false ∧ weekLess "2" "10" = true ∧
    weekLess "10" "2" = false ∧ weekLess "Camp" "Preseason" = true ∧
    weekLess "a" "ab" = true ∧ weekLess "b" "ab" = false := by
  decide

lemma rankLess_contract : LessContract rankLess := by
  refine ⟨?_, ?_, ?_⟩
  · intro a; simp [rankLess]
  · intro a b c; simp only [rankLess, decide_eq_true_eq]; omega
  · intro a b c; simp only [rankLess, decide_eq_false_iff_not]; omega

lemma char_toNat_inj (a b : Char) (h : a.toNat = b.toNat) : a = b := by
  rw [← Char.ofNat_toNat a, ← Char.ofNat_toNat b, h]

lemma stringLess_irrefl (l : List Char) : stringLess l l = false := by
  induction l with
  | nil => rfl
  | cons a as ih => simp [stringLess, ih]

lemma stringLess_trans : ∀ a b c : List Char,
    stringLess a b = true → stringLess b c = true → stringLess a c = true := by
  intro a
  induction a with
  | nil =>
    intro b c h1 h2
    cases b with
    | nil => simp [stringLess] at h1
    | cons y ys =>
      cases c with
      | nil => simp [stringLess] at h2
      | cons z zs => rfl
  | cons x xs ih =>
    intro b c h1 h2
    cases b with
    | nil => simp [stringLess] at h1
    | cons y ys =>
      cases c with
      | nil => simp [stringLess] at h2
      | cons z zs =>
        simp only [stringLess] at h1 h2 ⊢
        split_ifs at h1 h2 ⊢ <;> first
          | rfl
          | omega
          | exact ih ys zs h1 h2

lemma stringLess_negtrans : ∀ a b c : List Char,
    stringLess a b = false → stringLess b c = false → stringLess a c = false := by
  intro a
  induction a with
  | nil =>
    intro b c h1 h2
    cases b with
    | nil => exact h2
    | cons y ys => simp [stringLess] at h1
  | cons x xs ih =>
    intro b c h1 h2
    cases b with
    | nil =>
      cases c with
      | nil => rfl
      | cons z zs => simp [stringLess] at h2
    | cons y ys =>
      cases c with
      | nil => rfl
      | cons z zs =>
        simp only [stringLess] at h1 h2 ⊢
        split_ifs at h1 h2 ⊢ <;> first
          | rfl
          | omega
          | exact ih ys zs h1 h2

lemma stringLess_total : ∀ a b : List Char, a ≠ b →
    stringLess a b = true ∨ stringLess b a = true := by
  intro a
  induction a with
  | nil =>
    intro b hne
    cases b with
    | nil => exact absurd rfl hne
    | cons y ys => exact Or.inl rfl
  | cons x xs ih =>
    intro b hne
    cases b with
    | nil => exact Or.inr rfl
    | cons y ys =>
      simp only [stringLess]
      by_cases h1 : x.toNat < y.toNat
      · simp [h1]
      · by_cases h2 : y.toNat < x.toNat
        · simp [h2]
        · have hxy : x = y := char_toNat_inj x y (by omega)
          subst hxy
          have hne2 : xs ≠ ys := fun e => hne (by rw [e])
          simpa [h1] using ih ys hne2

lemma ordinaryID_parse (id : String) (h : ordinaryID id = true) :
    (isNumericID id = true ∧ ParseInt id 63 = (((decimalValue id.data : Nat) : Int), none)) ∨
    (isNumericID id = false ∧ (ParseInt id 63).2 ≠ none) := by
  unfold ordinaryID at h
  rw [Bool.or_eq_true] at h
  rcases h with h | h
  · rw [Bool.and_eq_true, decide_eq_true_eq] at h
    obtain ⟨hnum, hv⟩ := h
    left
    refine ⟨hnum, ?_⟩
    unfold isNumericID at hnum
    rw [Bool.and_eq_true, List.all_eq_true] at hnum
    have hne : id.data ≠ [] := by
      intro e
      rw [e] at hnum
      simp at hnum
    exact parseInt63_digits id.data hne hnum.2 hv
  · rw [List.any_eq_true] at h
    obtain ⟨c, hc, hcond⟩ := h
    simp only [Bool.and_eq_true, Bool.not_eq_true', decide_eq_true_eq] at hcond
    obtain ⟨⟨hd, hp⟩, hm⟩ := hcond
    right
    constructor
    · unfold isNumericID
      rw [Bool.and_eq_false_iff]
      right
      rw [List.all_eq_false]
      exact ⟨c, hc, by simp [hd]⟩
    · exact parseInt63_other id ⟨c, hc, hd, hp, hm⟩

lemma weekLess_eq_rule (a b : String) (ha : ordinaryID a = true) (hb : ordinaryID b = true) :
    weekLess a b = weekOrderRule a b := by
  unfold weekLess weekOrderRule
  rcases ordinaryID_parse a ha with ⟨na, pa⟩ | ⟨na, pa⟩ <;>
    rcases ordinaryID_parse b hb with ⟨nb, pb⟩ | ⟨nb, pb⟩
  · simp [na, nb, pa, pb]
  · simp [na, nb, pa, pb]
  · simp [na, nb, pa, pb]
  · simp [na, nb, pa, pb]

lemma weekLess_contract : LessContract weekLess := by
  refine ⟨?_, ?_, ?_⟩
  · intro a
    unfold weekLess
    generalize ParseInt a 63 = pa
    obtain ⟨va, ea⟩ := pa
    cases ea <;> simp [stringLess_irrefl]
  · intro a b c
    unfold weekLess
    generalize ParseInt a 63 = pa
    generalize ParseInt b 63 = pb
    generalize ParseInt c 63 = pc
    obtain ⟨va, ea⟩ := pa
    obtain ⟨vb, eb⟩ := pb
    obtain ⟨vc, ec⟩ := pc
    cases ea <;> cases eb <;> cases ec <;> simp <;> intro h h2 <;> first
      | exact lt_trans h h2
      | exact stringLess_trans _ _ _ h h2
  · intro a b c
    unfold weekLess
    generalize ParseInt a 63 = pa
    generalize ParseInt b 63 = pb
    generalize ParseInt c 63 = pc
    obtain ⟨va, ea⟩ := pa
    obtain ⟨vb, eb⟩ := pb
    obtain ⟨vc, ec⟩ := pc
    cases ea <;> cases eb <;> cases ec <;> simp <;> intro h h2 <;> first
      | exact le_trans h2 h
      | exact stringLess_negtrans _ _ _ h h2

lemma weekItemLess_contract :
    LessContract (fun l r : WeekItem => weekLess l.WeekID r.WeekID) := by
  obtain ⟨h1, h2, h3⟩ := weekLess_contract
  exact ⟨fun a => h1 _, fun a b c => h2 _ _ _, fun a b c => h3 _ _ _⟩

lemma weekLess_total_iff (a b : String) (hab : a ≠ b) :
    (weekLess a b = true ∨ weekLess b a = true) ↔ ¬ sameNumber a b := by
  have hd : a.data ≠ b.data := fun h => hab (String.ext h)
  have ht := stringLess_total a.data b.data hd
  unfold weekLess sameNumber
  generalize ParseInt a 63 = pa
  generalize ParseInt b 63 = pb
  obtain ⟨va, ea⟩ := pa
  obtain ⟨vb, eb⟩ := pb
  cases ea <;> cases eb <;> simp
  exact ht

lemma sorted_perm_unique {α : Type} (less : α → α → Bool) (l1 l2 : List α)
    (hp : List.Perm l1 l2)
    (h1 : List.Pairwise (fun a b => less b a = false) l1)
    (h2 : List.Pairwise (fun a b => less b a = false) l2)
    (htri : ∀ a ∈ l1, ∀ b ∈ l1, a ≠ b → less a b = true ∨ less b a = true) :
    l1 = l2 := by
  induction l1 generalizing l2 with
  | nil => exact (List.nil_perm.1 hp).symm
  | cons a t1 ih =>
    cases l2 with
    | nil => exact absurd (List.perm_nil.1 hp) (by simp)
    | cons b t2 =>
      rw [List.pairwise_cons] at h1 h2
      have hab : a = b := by
        by_contra hne
        have ha : a ∈ t2 := by
          have : a ∈ b :: t2 := hp.subset (List.mem_cons_self a t1)
          rcases List.mem_cons.1 this with h | h
          · exact absurd h hne
          · exact h
        have hb : b ∈ t1 := by
          have : b ∈ a :: t1 := hp.symm.subset (List.mem_cons_self b t2)
          rcases List.mem_cons.1 this with h | h
          · exact absurd h.symm hne
          · exact h
        have e1 := h1.1 b hb
        have e2 := h2.1 a ha
        rcases htri a (List.mem_cons_self a t1) b (List.mem_cons_of_mem a hb) hne with h | h
        · rw [e2] at h; exact absurd h (by simp)
        · rw [e1] at h; exact absurd h (by simp)
      subst hab
      have hp2 : List.Perm t1 t2 := List.Perm.cons_inv hp
      rw [ih t2 hp2 h1.2 h2.2 (fun x hx y hy => htri x (List.mem_cons_of_mem a hx) y
        (List.mem_cons_of_mem a hy))]

/-! ### The season store -/

lemma internalGetWeekIn_none (id : String) (l : List WeekItem) :
    internalGetWeekIn id l = none ↔ id ∉ l.map WeekItem.WeekID := by
  induction l with
  | nil => simp [internalGetWeekIn]
  | cons x xs ih =>
    unfold internalGetWeekIn
    by_cases h : x.WeekID = id
    · simp [h]
    · have h2 : ¬ id = x.WeekID := fun e => h e.symm
      simp [h, h2, ih]

lemma internalGetWeekIn_some (id : String) (w : WeekItem) (hw : w.WeekID = id)
    (l : List WeekItem) (i : Nat) (old : WeekItem)
    (h : internalGetWeekIn id l = some (i, old)) :
    i < l.length ∧ id ∈ l.map WeekItem.WeekID ∧
      (l.set i w).map WeekItem.WeekID = l.map WeekItem.WeekID ∧
      ((l.map WeekItem.WeekID).Nodup →
        (l.set i w).filter (fun x => decide (x.WeekID = id)) = [w]) := by
  induction l generalizing i with
  | nil => simp [internalGetWeekIn] at h
  | cons x xs ih =>
    unfold internalGetWeekIn at h
    by_cases hx : x.WeekID = id
    · simp only [hx, if_true, Option.some.injEq, Prod.mk.injEq] at h
      obtain ⟨rfl, rfl⟩ := h
      refine ⟨by simp, by simp [hx], by simp [hx, hw], ?_⟩
      intro hnd
      simp only [List.map_cons, List.nodup_cons] at hnd
      simp only [List.set_cons_zero, List.filter_cons, hw, decide_True, if_true]
      congr 1
      rw [List.filter_eq_nil_iff]
      intro y hy
      simp only [decide_eq_true_eq]
      intro hy2
      exact hnd.1 (by rw [hx, ← hy2]; exact List.mem_map_of_mem _ hy)
    · simp only [hx, if_false] at h
      cases hj : internalGetWeekIn id xs with
      | none => rw [hj] at h; simp at h
      | some q =>
      obtain ⟨j, o⟩ := q
      rw [hj] at h
      simp only [Option.map_some', Option.some.injEq, Prod.mk.injEq] at h
      obtain ⟨rfl, rfl⟩ := h
      obtain ⟨h1, h2, h3, h4⟩ := ih j hj
      refine ⟨by simpa using h1, by simp [h2], by simp [h3], ?_⟩
      intro hnd
      simp only [List.map_cons, List.nodup_cons] at hnd
      simp only [List.set_cons_succ, List.filter_cons, hx, decide_False]
      simpa using h4 hnd.2

lemma getWeekItem_eq_head (sdb : SeasonDB) (id : String) :
    sdb.GetWeekItem id = (sdb.WeekItems.filter (fun x => decide (x.WeekID = id))).head? := by
  unfold SeasonDB.GetWeekItem SeasonDB.internalGetWeek
  generalize sdb.WeekItems = l
  induction l with
  | nil => simp [internalGetWeekIn]
  | cons x xs ih =>
    unfold internalGetWeekIn
    by_cases hx : x.WeekID = id
    · simp [hx]
    · simp only [hx, if_false, List.filter_cons, decide_False, Bool.false_eq_true]
      rw [← ih]
      cases internalGetWeekIn id xs <;> simp

lemma getWeekItem_none (sdb : SeasonDB) (id : String) :
    sdb.GetWeekItem id = none ↔ id ∉ sdb.weekIDs := by
  unfold SeasonDB.GetWeekItem SeasonDB.internalGetWeek SeasonDB.weekIDs
  rw [← internalGetWeekIn_none]
  cases h : internalGetWeekIn id sdb.WeekItems <;> simp

lemma update_of_found (srt : SliceSort) (sdb : SeasonDB) (w : WeekItem) (i : Nat)
    (old : WeekItem) (h : internalGetWeekIn w.WeekID sdb.WeekItems = some (i, old)) :
    (sdb.UpdateWeekItem srt w).WeekItems =
      srt WeekItem (fun l r => weekLess l.WeekID r.WeekID)
        (sdb.WeekItems.set i (w.SortRankings srt)) := by
  simp [SeasonDB.UpdateWeekItem, SeasonDB.SortWeekItems, SeasonDB.internalGetWeek,
    WeekItem.SortRankings, h]

lemma update_of_missing (srt : SliceSort) (sdb : SeasonDB) (w : WeekItem)
    (h : internalGetWeekIn w.WeekID sdb.WeekItems = none) :
    (sdb.UpdateWeekItem srt w).WeekItems =
      srt WeekItem (fun l r => weekLess l.WeekID r.WeekID)
        (sdb.WeekItems ++ [w.SortRankings srt]) := by
  simp [SeasonDB.UpdateWeekItem, SeasonDB.SortWeekItems, SeasonDB.internalGetWeek,
    WeekItem.SortRankings, h]

lemma update_league (srt : SliceSort) (sdb : SeasonDB) (w : WeekItem) :
    (sdb.UpdateWeekItem srt w).League = sdb.League := by
  simp only [SeasonDB.UpdateWeekItem, SeasonDB.SortWeekItems]
  split <;> rfl

lemma update_sorted (srt : SliceSort) (hs : IsSliceSort srt) (sdb : SeasonDB) (w : WeekItem) :
    List.Pairwise (fun a b : WeekItem => weekLess b.WeekID a.WeekID = false)
      (sdb.UpdateWeekItem srt w).WeekItems := by
  cases h : internalGetWeekIn w.WeekID sdb.WeekItems with
  | none =>
    rw [update_of_missing srt sdb w h]
    exact (hs WeekItem _ _).2 weekItemLess_contract
  | some p =>
    obtain ⟨i, old⟩ := p
    rw [update_of_found srt sdb w i old h]
    exact (hs WeekItem _ _).2 weekItemLess_contract

lemma update_mem (srt : SliceSort) (hs : IsSliceSort srt) (sdb : SeasonDB) (w : WeekItem) :
    w.SortRankings srt ∈ (sdb.UpdateWeekItem srt w).WeekItems := by
  cases h : internalGetWeekIn w.WeekID sdb.WeekItems with
  | none =>
    rw [update_of_missing srt sdb w h]
    exact (hs WeekItem _ _).1.symm.subset (by simp)
  | some p =>
    obtain ⟨i, old⟩ := p
    rw [update_of_found srt sdb w i old h]
    have hi := (internalGetWeekIn_some w.WeekID (w.SortRankings srt) rfl _ i old h).1
    exact (hs WeekItem _ _).1.symm.subset (List.mem_set _ _ hi _)

lemma update_perm_missing (srt : SliceSort) (hs : IsSliceSort srt) (sdb : SeasonDB)
    (w : WeekItem) (h : w.WeekID ∉ sdb.weekIDs) :
    List.Perm (sdb.UpdateWeekItem srt w).WeekItems (sdb.WeekItems ++ [w.SortRankings srt]) := by
  have h2 := (internalGetWeekIn_none w.WeekID sdb.WeekItems).2 h
  rw [update_of_missing srt sdb w h2]
  exact (hs WeekItem _ _).1

lemma sortRankings_id (srt : SliceSort) (w : WeekItem) :
    (w.SortRankings srt).WeekID = w.WeekID := rfl

lemma upsertAll_items_perm (srt : SliceSort) (hs : IsSliceSort srt) (ws : List WeekItem) :
    ∀ sdb : SeasonDB, (sdb.weekIDs ++ ws.map WeekItem.WeekID).Nodup →
      List.Perm (sdb.upsertAll srt ws).WeekItems
        (sdb.WeekItems ++ ws.map (WeekItem.SortRankings srt)) := by
  induction ws with
  | nil => intro sdb _; simp [SeasonDB.upsertAll]
  | cons w rest ih =>
    intro sdb hnd
    have hw : w.WeekID ∉ sdb.weekIDs := by
      intro hmem
      rw [List.nodup_append] at hnd
      exact hnd.2.2 hmem (by simp)
    have hp := update_perm_missing srt hs sdb w hw
    have hids : List.Perm (sdb.UpdateWeekItem srt w).weekIDs (sdb.weekIDs ++ [w.WeekID]) := by
      have := hp.map WeekItem.WeekID
      simpa [SeasonDB.weekIDs, sortRankings_id] using this
    have hnd2 : ((sdb.UpdateWeekItem srt w).weekIDs ++ rest.map WeekItem.WeekID).Nodup := by
      have hq : List.Perm ((sdb.UpdateWeekItem srt w).weekIDs ++ rest.map WeekItem.WeekID)
          (sdb.weekIDs ++ (w :: rest).map WeekItem.WeekID) := by
        have := List.Perm.append_right (rest.map WeekItem.WeekID) hids
        simpa using this
      exact hq.nodup_iff.2 hnd
    have h3 := ih (sdb.UpdateWeekItem srt w) hnd2
    have h4 : List.Perm ((sdb.UpdateWeekItem srt w).WeekItems ++
        rest.map (WeekItem.SortRankings srt))
        (sdb.WeekItems ++ (w :: rest).map (WeekItem.SortRankings srt)) := by
      have := List.Perm.append_right (rest.map (WeekItem.SortRankings srt)) hp
      simpa using this
    exact h3.trans h4

lemma upsertAll_sorted (srt : SliceSort) (hs : IsSliceSort srt) (ws : List WeekItem) :
    ∀ sdb : SeasonDB,
      List.Pairwise (fun a b : WeekItem => weekLess b.WeekID a.WeekID = false) sdb.WeekItems →
      List.Pairwise (fun a b : WeekItem => weekLess b.WeekID a.WeekID = false)
        (sdb.upsertAll srt ws).WeekItems := by
  induction ws with
  | nil => intro sdb h; simpa [SeasonDB.upsertAll] using h
  | cons w rest ih =>
    intro sdb _
    exact ih (sdb.UpdateWeekItem srt w) (update_sorted srt hs sdb w)

lemma upsertAll_league (srt : SliceSort) (ws : List WeekItem) :
    ∀ sdb : SeasonDB, (sdb.upsertAll srt ws).League = sdb.League := by
  induction ws with
  | nil => intro sdb; rfl
  | cons w rest ih =>
    intro sdb
    exact (ih (sdb.UpdateWeekItem srt w)).trans (update_league srt sdb w)

lemma updateWeekItem_upsert_aux (srt : SliceSort) (hs : IsSliceSort srt)
    (sdb : SeasonDB) (w : WeekItem) (hd : sdb.weekIDs.Nodup) :
    (sdb.UpdateWeekItem srt w).WeekItems.filter (fun x => decide (x.WeekID = w.WeekID))
      = [w.SortRankings srt] := by
  cases h : internalGetWeekIn w.WeekID sdb.WeekItems with
  | none =>
    have hno := (internalGetWeekIn_none w.WeekID sdb.WeekItems).1 h
    have hp := (update_perm_missing srt hs sdb w hno).filter
      (fun x => decide (x.WeekID = w.WeekID))
    have hf : sdb.WeekItems.filter (fun x => decide (x.WeekID = w.WeekID)) = [] := by
      rw [List.filter_eq_nil_iff]
      intro y hy
      simp only [decide_eq_true_eq]
      intro hy2
      exact hno (by rw [← hy2]; exact List.mem_map_of_mem _ hy)
    rw [List.filter_append, hf] at hp
    simp only [List.nil_append, List.filter_cons, sortRankings_id, decide_True, if_true,
      List.filter_nil] at hp
    exact List.perm_singleton.1 hp
  | some q =>
    obtain ⟨i, old⟩ := q
    obtain ⟨_, _, _, hfil⟩ :=
      internalGetWeekIn_some w.WeekID (w.SortRankings srt) rfl sdb.WeekItems i old h
    have hp : List.Perm (sdb.UpdateWeekItem srt w).WeekItems
        (sdb.WeekItems.set i (w.SortRankings srt)) := by
      rw [update_of_found srt sdb w i old h]
      exact (hs WeekItem _ _).1
    have hq := hp.filter (fun x => decide (x.WeekID = w.WeekID))
    rw [hfil hd] at hq
    exact List.perm_singleton.1 hq

/-- Claim C1. On a season whose week ids are pairwise distinct, `UpdateWeekItem`
keeps them pairwise distinct; when a week with the id of `w` exists the number
of weeks is unchanged and the only record with that id afterwards is `w` (its
rankings sorted in place by the call); when none exists the number of weeks
grows by exactly one. -/
theorem updateWeekItem_upsert (srt : SliceSort) (hs : IsSliceSort srt)
    (sdb : SeasonDB) (w : WeekItem) (hd : sdb.weekIDs.Nodup) :
    (sdb.UpdateWeekItem srt w).weekIDs.Nodup ∧
    (w.WeekID ∈ sdb.weekIDs →
      (sdb.UpdateWeekItem srt w).WeekItems.length = sdb.WeekItems.length ∧
      (sdb.UpdateWeekItem srt w).WeekItems.filter (fun x => decide (x.WeekID = w.WeekID))
        = [w.SortRankings srt]) ∧
    (w.WeekID ∉ sdb.weekIDs →
      (sdb.UpdateWeekItem srt w).WeekItems.length = sdb.WeekItems.length + 1) := by
  cases h : internalGetWeekIn w.WeekID sdb.WeekItems with
  | none =>
    have hno := (internalGetWeekIn_none w.WeekID sdb.WeekItems).1 h
    have hp := update_perm_missing srt hs sdb w hno
    refine ⟨?_, fun hmem => absurd hmem hno, fun _ => ?_⟩
    · have hq := hp.map WeekItem.WeekID
      refine hq.nodup_iff.2 ?_
      simp only [List.map_append, List.map_cons, List.map_nil, sortRankings_id]
      rw [List.nodup_append]
      refine ⟨hd, by simp, ?_⟩
      intro a ha hb
      simp only [List.mem_singleton] at hb
      subst hb
      exact hno ha
    · simpa using hp.length_eq
  | some q =>
    obtain ⟨i, old⟩ := q
    obtain ⟨_, hmem, hids, hfil⟩ :=
      internalGetWeekIn_some w.WeekID (w.SortRankings srt) rfl sdb.WeekItems i old h
    have hp : List.Perm (sdb.UpdateWeekItem srt w).WeekItems
        (sdb.WeekItems.set i (w.SortRankings srt)) := by
      rw [update_of_found srt sdb w i old h]
      exact (hs WeekItem _ _).1
    refine ⟨?_, fun _ => ⟨?_, ?_⟩, fun hno => absurd hmem hno⟩
    · have hq := hp.map WeekItem.WeekID
      rw [hids] at hq
      exact hq.nodup_iff.2 hd
    · simpa using hp.length_eq
    · have hq := hp.filter (fun x => decide (x.WeekID = w.WeekID))
      rw [hfil hd] at hq
      exact List.perm_singleton.1 hq

/-- Witness of C1 on the example season: an existing week is replaced. -/
theorem updateWeekItem_upsert_witness :
    IsSliceSort goInsertionSort ∧ exampleSeason.weekIDs.Nodup ∧
    (exampleSeason.UpdateWeekItem goInsertionSort (exampleWeek "1")).weekIDs.Nodup ∧
    (exampleSeason.UpdateWeekItem goInsertionSort (exampleWeek "1")).WeekItems.length = 2 ∧
    (exampleSeason.UpdateWeekItem goInsertionSort (exampleWeek "2")).WeekItems.length = 3 :=
  ⟨goInsertionSort_isSliceSort, by decide,
    (updateWeekItem_upsert goInsertionSort goInsertionSort_isSliceSort exampleSeason
      (exampleWeek "1") (by decide)).1,
    ((updateWeekItem_upsert goInsertionSort goInsertionSort_isSliceSort exampleSeason
      (exampleWeek "1") (by decide)).2.1 (by decide)).1,
    (updateWeekItem_upsert goInsertionSort goInsertionSort_isSliceSort exampleSeason
      (exampleWeek "2") (by decide)).2.2 (by decide)⟩

lemma update_ids_subset (srt : SliceSort) (hs : IsSliceSort srt) (sdb : SeasonDB)
    (w : WeekItem) :
    ∀ x ∈ (sdb.UpdateWeekItem srt w).WeekItems, x.WeekID ∈ w.WeekID :: sdb.weekIDs := by
  intro x hx
  cases h : internalGetWeekIn w.WeekID sdb.WeekItems with
  | none =>
    rw [update_of_missing srt sdb w h] at hx
    have hx2 := (hs WeekItem _ _).1.subset hx
    rcases List.mem_append.1 hx2 with h1 | h1
    · exact List.mem_cons_of_mem _ (List.mem_map.2 ⟨x, h1, rfl⟩)
    · rw [List.mem_singleton] at h1
      rw [h1]
      exact List.mem_cons_self _ _
  | some q =>
    obtain ⟨i, old⟩ := q
    rw [update_of_found srt sdb w i old h] at hx
    have hx2 := (hs WeekItem _ _).1.subset hx
    rcases List.mem_or_eq_of_mem_set hx2 with h1 | h1
    · exact List.mem_cons_of_mem _ (List.mem_map.2 ⟨x, h1, rfl⟩)
    · rw [h1]
      exact List.mem_cons_self _ _

/-- Where the week order rule does hold. After `UpdateWeekItem` no later
week sorts strictly before an earlier one by the comparator of
`SortWeekItems`; when every id at hand is a run of digits that writes a
number below 2^62 or a text with a character that is neither a digit nor a
sign, the comparator is the week order rule, so the weeks are sorted by the
rule. Upserting weeks with the ids Camp, 1, 2, 10 into an empty store, in
any order, leaves the id sequence Camp, 1, 2, 10. -/
theorem updateWeekItem_week_order_in_range (srt : SliceSort) (hs : IsSliceSort srt)
    (sdb : SeasonDB) (w : WeekItem) :
    List.Pairwise (fun a b : WeekItem => weekLess b.WeekID a.WeekID = false)
      (sdb.UpdateWeekItem srt w).WeekItems ∧
    (∀ a b : String, ordinaryID a = true → ordinaryID b = true →
      weekLess a b = weekOrderRule a b) ∧
    ((∀ id ∈ w.WeekID :: sdb.weekIDs, ordinaryID id = true) →
      List.Pairwise (fun a b : WeekItem => weekOrderRule b.WeekID a.WeekID = false)
        (sdb.UpdateWeekItem srt w).WeekItems) ∧
    ∀ (league : String) (ws : List WeekItem),
      List.Perm (ws.map WeekItem.WeekID) ["Camp", "1", "2", "10"] →
      ((NewSeasonDB league).upsertAll srt ws).weekIDs = ["Camp", "1", "2", "10"] := by
  refine ⟨update_sorted srt hs sdb w, weekLess_eq_rule, ?_, ?_⟩
  · intro hids
    refine List.Pairwise.imp_of_mem ?_ (update_sorted srt hs sdb w)
    intro a b ha hb h
    rw [← weekLess_eq_rule b.WeekID a.WeekID
      (hids _ (update_ids_subset srt hs sdb w b hb))
      (hids _ (update_ids_subset srt hs sdb w a ha))]
    exact h
  · intro league ws hp
    have hnd : ((NewSeasonDB league).weekIDs ++ ws.map WeekItem.WeekID).Nodup := by
      simp only [NewSeasonDB, SeasonDB.weekIDs, List.map_nil, List.nil_append]
      exact hp.nodup_iff.2 (by decide)
    have h1 := (upsertAll_items_perm srt hs ws (NewSeasonDB league) hnd).map WeekItem.WeekID
    have h2 : List.Perm ((NewSeasonDB league).upsertAll srt ws).weekIDs
        ["Camp", "1", "2", "10"] := by
      refine List.Perm.trans ?_ hp
      simpa [SeasonDB.weekIDs, NewSeasonDB, Function.comp_def, sortRankings_id] using h1
    have h3 := upsertAll_sorted srt hs ws (NewSeasonDB league) (by simp [NewSeasonDB])
    have h4 : List.Pairwise (fun a b : String => weekLess b a = false)
        ((NewSeasonDB league).upsertAll srt ws).weekIDs := by
      unfold SeasonDB.weekIDs
      rw [List.pairwise_map]
      exact h3
    refine sorted_perm_unique weekLess _ _ h2 h4 (by decide) ?_
    have hall : ∀ a ∈ ["Camp", "1", "2", "10"], ∀ b ∈ ["Camp", "1", "2", "10"],
        a ≠ b → weekLess a b = true ∨ weekLess b a = true := by decide
    intro a ha b hb
    exact hall a (h2.subset ha) b (h2.subset hb)

/-- The week order rule on the example season: its ids are read alike by the
comparator and the rule, and the four weeks upserted in the order 10, 2,
Camp, 1 end in the order Camp, 1, 2, 10. -/
theorem updateWeekItem_week_order_in_range_example :
    IsSliceSort goInsertionSort ∧
    (∀ id ∈ (exampleWeek "2").WeekID :: exampleSeason.weekIDs, ordinaryID id = true) ∧
    List.Pairwise (fun a b : WeekItem => weekOrderRule b.WeekID a.WeekID = false)
      (exampleSeason.UpdateWeekItem goInsertionSort (exampleWeek "2")).WeekItems ∧
    ((NewSeasonDB "NBA").upsertAll goInsertionSort
      [exampleWeek "10", exampleWeek "2", exampleWeek "Camp", exampleWeek "1"]).weekIDs
      = ["Camp", "1", "2", "10"] :=
  ⟨goInsertionSort_isSliceSort, by decide,
    (updateWeekItem_week_order_in_range goInsertionSort goInsertionSort_isSliceSort exampleSeason
      (exampleWeek "2")).2.2.1 (by decide),
    (updateWeekItem_week_order_in_range goInsertionSort goInsertionSort_isSliceSort exampleSeason
      (exampleWeek "2")).2.2.2 "NBA" _ (by decide)⟩

/-- Claim C2 fails on the code. The id 4611686018427387904 is a run of
digits, so numeric, and the week pattern of the NBA pages captures it from a
link; by the week order rule 5 sorts strictly before it, and so does Camp,
the one id of the three that is not numeric. `strconv.ParseInt` is asked for
63 bits and reports a range error from 2^62 on, so the comparator of
`SortWeekItems` takes the id for text: upserted after week 5 it is stored
before week 5, and with Camp upserted too it is stored before Camp, a number
before a text and before a smaller number. -/
theorem week_order_breaks_at_large_ids :
    nbaWeekFromURLRE.FindStringSubmatch 1 "/nba/story/_/id/1/week-4611686018427387904-rankings" =
      ["week-4611686018427387904-rankings", "4611686018427387904"] ∧
    isNumericID "4611686018427387904" = true ∧ isNumericID "5" = true ∧
    isNumericID "Camp" = false ∧
    decimalValue "4611686018427387904".data = 4611686018427387904 ∧
    decimalValue "5".data = 5 ∧
    weekOrderRule "5" "4611686018427387904" = true ∧
    weekOrderRule "Camp" "4611686018427387904" = true ∧
    ParseInt "4611686018427387904" 63 = (4611686018427387903, some NumError.ErrRange) ∧
    weekLess "4611686018427387904" "5" = true ∧
    weekLess "4611686018427387904" "Camp" = true ∧
    (((NewSeasonDB "NBA").UpdateWeekItem goInsertionSort (exampleWeek "5")).UpdateWeekItem
      goInsertionSort (exampleWeek "4611686018427387904")).weekIDs =
      ["4611686018427387904", "5"] ∧
    ((NewSeasonDB "NBA").upsertAll goInsertionSort
      [exampleWeek "5", exampleWeek "4611686018427387904", exampleWeek "Camp"]).weekIDs =
      ["4611686018427387904", "Camp", "5"] := by
  decide

/-- Claim C7. After `UpdateWeekItem` the record stored for the id of `w` is
`w` with its rankings rearranged: it is in the store, its rankings are a
permutation of the rankings passed in and non-decreasing by rank; when the
week ids of the season were pairwise distinct it is the record that
`GetWeekItem` returns for that id. -/
theorem updateWeekItem_rankings_sorted (srt : SliceSort) (hs : IsSliceSort srt)
    (sdb : SeasonDB) (w : WeekItem) :
    w.SortRankings srt ∈ (sdb.UpdateWeekItem srt w).WeekItems ∧
    (w.SortRankings srt).WeekID = w.WeekID ∧
    (w.SortRankings srt).ScrapeDate = w.ScrapeDate ∧
    List.Perm (w.SortRankings srt).Rankings w.Rankings ∧
    List.Pairwise (fun a b : RankItem => a.Rank ≤ b.Rank) (w.SortRankings srt).Rankings ∧
    (sdb.weekIDs.Nodup →
      (sdb.UpdateWeekItem srt w).GetWeekItem w.WeekID = some (w.SortRankings srt)) := by
  refine ⟨update_mem srt hs sdb w, rfl, rfl, (hs RankItem rankLess w.Rankings).1, ?_, ?_⟩
  · refine ((hs RankItem rankLess w.Rankings).2 rankLess_contract).imp ?_
    intro a b h
    simpa [rankLess] using h
  · intro hd
    rw [getWeekItem_eq_head]
    have hmem := update_mem srt hs sdb w
    have hup := updateWeekItem_upsert_aux srt hs sdb w hd
    rw [hup]
    rfl

/-- Witness of C7 on the example season: week 1 is replaced by a record
whose two entries arrive out of rank order. -/
theorem updateWeekItem_rankings_sorted_witness :
    IsSliceSort goInsertionSort ∧ exampleSeason.weekIDs.Nodup ∧
    ((exampleWeek "1").SortRankings goInsertionSort).Rankings =
      [{ Team := "Golden State Warriors", Rank := 1 }, { Team := "San Antonio Spurs", Rank := 2 }] ∧
    (exampleSeason.UpdateWeekItem goInsertionSort (exampleWeek "1")).GetWeekItem "1" =
      some ((exampleWeek "1").SortRankings goInsertionSort) :=
  ⟨goInsertionSort_isSliceSort, by decide, by decide,
    (updateWeekItem_rankings_sorted goInsertionSort goInsertionSort_isSliceSort exampleSeason
      (exampleWeek "1")).2.2.2.2.2 (by decide)⟩

/-- Counterexample to C10 as stated: the ids 1 and 01 are distinct, yet
neither sorts strictly before the other, and two stores holding exactly these
two ids keep them in the order of insertion. -/
theorem weekLess_not_total :
    "1" ≠ "01" ∧ weekLess "1" "01" = false ∧ weekLess "01" "1" = false ∧
    ((NewSeasonDB "NBA").upsertAll goInsertionSort [exampleWeek "1", exampleWeek "01"]).weekIDs
      = ["1", "01"] ∧
    ((NewSeasonDB "NBA").upsertAll goInsertionSort [exampleWeek "01", exampleWeek "1"]).weekIDs
      = ["01", "1"] := by
  decide

/-- Claim C10, amended. The comparator of `SortWeekItems` is a strict weak
order on week ids: irreflexive, transitive, asymmetric, and of two distinct
ids exactly one sorts strictly before the other unless `ParseInt` reads both
as the same number. Hence for ids among which no two distinct ones are the
same number, the sorted id sequence is determined by the ids alone, and a
store built from pairwise distinct such ids does not depend on the order in
which the weeks were upserted. -/
theorem weekLess_strict_weak_order (srt : SliceSort) (hs : IsSliceSort srt) :
    (∀ a, weekLess a a = false) ∧
    (∀ a b c, weekLess a b = true → weekLess b c = true → weekLess a c = true) ∧
    (∀ a b, weekLess a b = true → weekLess b a = false) ∧
    (∀ a b, a ≠ b → ¬ sameNumber a b →
      (weekLess a b = true ∧ weekLess b a = false) ∨
      (weekLess b a = true ∧ weekLess a b = false)) ∧
    (∀ sdb1 sdb2 : SeasonDB, List.Perm sdb1.weekIDs sdb2.weekIDs →
      (∀ a ∈ sdb1.weekIDs, ∀ b ∈ sdb1.weekIDs, a ≠ b → ¬ sameNumber a b) →
      (sdb1.SortWeekItems srt).weekIDs = (sdb2.SortWeekItems srt).weekIDs) ∧
    (∀ (league : String) (ws1 ws2 : List WeekItem), List.Perm ws1 ws2 →
      (ws1.map WeekItem.WeekID).Nodup →
      (∀ a ∈ ws1.map WeekItem.WeekID, ∀ b ∈ ws1.map WeekItem.WeekID, a ≠ b → ¬ sameNumber a b) →
      (NewSeasonDB league).upsertAll srt ws1 = (NewSeasonDB league).upsertAll srt ws2) := by
  obtain ⟨hirr, htr, hneg⟩ := weekLess_contract
  have hasym : ∀ a b, weekLess a b = true → weekLess b a = false := by
    intro a b hab
    cases hba : weekLess b a with
    | false => rfl
    | true => have := htr a b a hab hba; rw [hirr] at this; exact absurd this (by simp)
  refine ⟨hirr, htr, hasym, ?_, ?_, ?_⟩
  · intro a b hne hsn
    rcases (weekLess_total_iff a b hne).2 hsn with h | h
    · exact Or.inl ⟨h, hasym a b h⟩
    · exact Or.inr ⟨h, hasym b a h⟩
  · intro sdb1 sdb2 hp htie
    have p1 : List.Perm (sdb1.SortWeekItems srt).weekIDs sdb1.weekIDs :=
      ((hs WeekItem _ sdb1.WeekItems).1).map WeekItem.WeekID
    have p2 : List.Perm (sdb2.SortWeekItems srt).weekIDs sdb2.weekIDs :=
      ((hs WeekItem _ sdb2.WeekItems).1).map WeekItem.WeekID
    have s1 : List.Pairwise (fun a b : String => weekLess b a = false)
        (sdb1.SortWeekItems srt).weekIDs := by
      unfold SeasonDB.weekIDs
      rw [List.pairwise_map]
      exact (hs WeekItem _ sdb1.WeekItems).2 weekItemLess_contract
    have s2 : List.Pairwise (fun a b : String => weekLess b a = false)
        (sdb2.SortWeekItems srt).weekIDs := by
      unfold SeasonDB.weekIDs
      rw [List.pairwise_map]
      exact (hs WeekItem _ sdb2.WeekItems).2 weekItemLess_contract
    refine sorted_perm_unique weekLess _ _ (p1.trans (hp.trans p2.symm)) s1 s2 ?_
    intro a ha b hb hne
    exact (weekLess_total_iff a b hne).2 (htie a (p1.subset ha) b (p1.subset hb) hne)
  · intro league ws1 ws2 hp hnd htie
    have hnd2 : (ws2.map WeekItem.WeekID).Nodup := (hp.map WeekItem.WeekID).nodup_iff.1 hnd
    have q1 := upsertAll_items_perm srt hs ws1 (NewSeasonDB league)
      (by simpa [NewSeasonDB, SeasonDB.weekIDs] using hnd)
    have q2 := upsertAll_items_perm srt hs ws2 (NewSeasonDB league)
      (by simpa [NewSeasonDB, SeasonDB.weekIDs] using hnd2)
    simp only [NewSeasonDB, List.nil_append] at q1 q2
    have s1 := upsertAll_sorted srt hs ws1 (NewSeasonDB league) (by simp [NewSeasonDB])
    have s2 := upsertAll_sorted srt hs ws2 (NewSeasonDB league) (by simp [NewSeasonDB])
    have hitems : ((NewSeasonDB league).upsertAll srt ws1).WeekItems =
        ((NewSeasonDB league).upsertAll srt ws2).WeekItems := by
      refine sorted_perm_unique (fun l r : WeekItem => weekLess l.WeekID r.WeekID) _ _
        (q1.trans ((hp.map _).trans q2.symm)) s1 s2 ?_
      intro a ha b hb hne
      have ha2 := q1.subset ha
      have hb2 := q1.subset hb
      have hida : a.WeekID ∈ ws1.map WeekItem.WeekID := by
        obtain ⟨x, hx, rfl⟩ := List.mem_map.1 ha2
        exact List.mem_map.2 ⟨x, hx, rfl⟩
      have hidb : b.WeekID ∈ ws1.map WeekItem.WeekID := by
        obtain ⟨x, hx, rfl⟩ := List.mem_map.1 hb2
        exact List.mem_map.2 ⟨x, hx, rfl⟩
      have hidne : a.WeekID ≠ b.WeekID := by
        intro he
        have hnd3 : ((ws1.map (WeekItem.SortRankings srt)).map WeekItem.WeekID).Nodup := by
          simpa [Function.comp_def, sortRankings_id] using hnd
        exact hne (List.inj_on_of_nodup_map hnd3 ha2 hb2 he)
      exact (weekLess_total_iff _ _ hidne).2 (htie _ hida _ hidb hidne)
    have hl : ((NewSeasonDB league).upsertAll srt ws1).League =
        ((NewSeasonDB league).upsertAll srt ws2).League := by
      rw [upsertAll_league, upsertAll_league]
    cases h1 : (NewSeasonDB league).upsertAll srt ws1
    cases h2 : (NewSeasonDB league).upsertAll srt ws2
    rw [h1, h2] at hitems hl
    simp only at hitems hl
    rw [hitems, hl]

/-- Witness of C10, amended: the ids Camp, 1, 2 upserted in two orders. -/
theorem weekLess_strict_weak_order_witness :
    IsSliceSort goInsertionSort ∧ "2" ≠ "10" ∧ ¬ sameNumber "2" "10" ∧
    weekLess "2" "10" = true ∧
    List.Perm [exampleWeek "2", exampleWeek "Camp", exampleWeek "1"]
      [exampleWeek "1", exampleWeek "2", exampleWeek "Camp"] ∧
    (NewSeasonDB "NBA").upsertAll goInsertionSort
        [exampleWeek "2", exampleWeek "Camp", exampleWeek "1"] =
      (NewSeasonDB "NBA").upsertAll goInsertionSort
        [exampleWeek "1", exampleWeek "2", exampleWeek "Camp"] :=
  ⟨goInsertionSort_isSliceSort, by decide, by unfold sameNumber; decide, by decide, by decide,
    (weekLess_strict_weak_order goInsertionSort goInsertionSort_isSliceSort).2.2.2.2.2 "NBA"
      [exampleWeek "2", exampleWeek "Camp", exampleWeek "1"]
      [exampleWeek "1", exampleWeek "2", exampleWeek "Camp"] (by decide) (by decide)
      (by unfold sameNumber; decide)⟩

/-! ### The fetch cache -/

/-- The model of the log encoding on sample inputs. -/
theorem fetch_log_checks :
    jsonMarshalBytes [72, 105] = "\"SGk=\"" ∧
    jsonUnmarshalBytes "\"SGk=\"" = some [72, 105] ∧
    splitNewline "a\nb\n".data = ["a".data, "b".data, []] ∧
    (NewHttpQueryCache "httpcache/NBA.txt" true exampleReplayWorld).1.history =
      ["\"SGk=\"", "\"AQIDBA==\""] := by
  decide

lemma b64Val_b64Char : ∀ v : Nat, v < 64 → b64Val (b64Char v) = some v := by
  decide

lemma b64Char_mem : ∀ v : Nat, v < 64 → b64Char v ∈ encodeStd := by
  decide

lemma b64Char_ne_pad (v : Nat) (h : v < 64) : b64Char v ≠ '=' := by
  intro he
  have := b64Char_mem v h
  rw [he] at this
  revert this
  decide

lemma b64Decode_quad (v0 v1 v2 v3 : Nat) (h0 : v0 < 64) (h1 : v1 < 64) (h2 : v2 < 64)
    (h3 : v3 < 64) (t : List Char) :
    b64Decode (b64Char v0 :: b64Char v1 :: b64Char v2 :: b64Char v3 :: t) =
      (b64Decode t).map (fun tail =>
        Fin.ofNat ((v0 * 262144 + v1 * 4096 + v2 * 64 + v3) / 65536) ::
        Fin.ofNat ((v0 * 262144 + v1 * 4096 + v2 * 64 + v3) / 256) ::
        Fin.ofNat (v0 * 262144 + v1 * 4096 + v2 * 64 + v3) :: tail) := by
  cases t with
  | nil =>
    simp [b64Decode, b64Val_b64Char, h0, h1, h2, h3, b64Char_ne_pad]
  | cons x xs =>
    rw [b64Decode]
    · simp only [b64Val_b64Char, h0, h1, h2, h3]
      cases b64Decode (x :: xs) <;> simp
    · intro h; simp at h

lemma b64_roundtrip (p : Bytes) : b64Decode (b64Encode p) = some p := by
  induction p using b64Encode.induct with
  | case1 a b c rest ih =>
    obtain ⟨a, ha⟩ := a
    obtain ⟨b, hb⟩ := b
    obtain ⟨c, hc⟩ := c
    rw [b64Encode, b64Decode_quad _ _ _ _ (Nat.mod_lt _ (by norm_num)) (Nat.mod_lt _ (by norm_num))
      (Nat.mod_lt _ (by norm_num)) (Nat.mod_lt _ (by norm_num)), ih]
    simp only [Option.map_some', Option.some.injEq, List.cons.injEq, and_true]
    refine ⟨?_, ?_, ?_⟩ <;> (apply Fin.ext; simp only [Fin.ofNat]; omega)
  | case2 a b =>
    obtain ⟨a, ha⟩ := a
    obtain ⟨b, hb⟩ := b
    have h0 : a * 65536 / 262144 % 64 < 64 := Nat.mod_lt _ (by norm_num)
    simp only [b64Encode, b64Decode, Nat.mod_lt, b64Val_b64Char, b64Char_ne_pad, Nat.ofNat_pos,
      false_and, if_false, if_true, Option.some.injEq, List.cons.injEq, and_true]
    refine ⟨?_, ?_⟩ <;> (apply Fin.ext; simp only [Fin.ofNat]; omega)
  | case3 a =>
    obtain ⟨a, ha⟩ := a
    simp only [b64Encode, b64Decode, Nat.mod_lt, b64Val_b64Char, b64Char_ne_pad, Nat.ofNat_pos,
      and_self, if_true, Option.some.injEq, List.cons.injEq, and_true]
    apply Fin.ext; simp only [Fin.ofNat]; omega
  | case4 => rfl

lemma b64Encode_chars (p : Bytes) : ∀ c ∈ b64Encode p, c ∈ encodeStd ∨ c = '=' := by
  induction p using b64Encode.induct with
  | case1 a b c rest ih =>
    intro x hx
    rw [b64Encode] at hx
    simp only [List.mem_cons] at hx
    rcases hx with rfl | rfl | rfl | rfl | hx
    · exact Or.inl (b64Char_mem _ (Nat.mod_lt _ (by norm_num)))
    · exact Or.inl (b64Char_mem _ (Nat.mod_lt _ (by norm_num)))
    · exact Or.inl (b64Char_mem _ (Nat.mod_lt _ (by norm_num)))
    · exact Or.inl (b64Char_mem _ (Nat.mod_lt _ (by norm_num)))
    · exact ih x hx
  | case2 a b =>
    intro x hx
    simp only [b64Encode, List.mem_cons, List.mem_singleton, List.not_mem_nil, or_false] at hx
    rcases hx with rfl | rfl | rfl | rfl
    · exact Or.inl (b64Char_mem _ (Nat.mod_lt _ (by norm_num)))
    · exact Or.inl (b64Char_mem _ (Nat.mod_lt _ (by norm_num)))
    · exact Or.inl (b64Char_mem _ (Nat.mod_lt _ (by norm_num)))
    · exact Or.inr rfl
  | case3 a =>
    intro x hx
    simp only [b64Encode, List.mem_cons, List.mem_singleton, List.not_mem_nil, or_false] at hx
    rcases hx with rfl | rfl | rfl | rfl
    · exact Or.inl (b64Char_mem _ (Nat.mod_lt _ (by norm_num)))
    · exact Or.inl (b64Char_mem _ (Nat.mod_lt _ (by norm_num)))
    · exact Or.inr rfl
    · exact Or.inr rfl
  | case4 => intro x hx; simp [b64Encode] at hx

lemma json_roundtrip (p : Bytes) : jsonUnmarshalBytes (jsonMarshalBytes p) = some p := by
  unfold jsonUnmarshalBytes jsonMarshalBytes
  have hne : ¬ (String.mk ('"' :: (b64Encode p ++ ['"'])) = "null") := by
    intro h
    have := congrArg String.data h
    simp at this
  rw [if_neg hne]
  simp [b64_roundtrip]

lemma json_no_newline (p : Bytes) : '\n' ∉ (jsonMarshalBytes p).data := by
  unfold jsonMarshalBytes
  simp only [List.mem_cons, List.mem_append, List.mem_singleton, not_or]
  refine ⟨by decide, ?_, by decide, by simp⟩
  intro h
  rcases b64Encode_chars p _ h with h2 | h2
  · revert h2; decide
  · revert h2; decide

lemma splitNewline_line (l rest : List Char) (h : '\n' ∉ l) :
    splitNewline (l ++ '\n' :: rest) = l :: splitNewline rest := by
  induction l with
  | nil => simp [splitNewline]
  | cons c cs ih =>
    simp only [List.mem_cons, not_or] at h
    have hc : ¬ c = '\n' := fun e => h.1 e.symm
    have := ih h.2
    simp only [List.cons_append, splitNewline, hc, if_false]
    rw [List.append_eq] at *
    rw [this]

lemma splitNewline_recordLog (ps : List Bytes) :
    (splitNewline (recordLog ps).data).map String.mk = ps.map jsonMarshalBytes ++ [""] := by
  induction ps with
  | nil => simp [recordLog, splitNewline]
  | cons p ps ih =>
    have hd : (recordLog (p :: ps)).data =
        (jsonMarshalBytes p).data ++ '\n' :: (recordLog ps).data := by
      simp [recordLog, recordLine]
    rw [hd, splitNewline_line _ _ (json_no_newline p)]
    simp [ih]

lemma recordLog_length_pos (p : Bytes) (ps : List Bytes) : (recordLog (p :: ps)).length > 0 := by
  have h1 : (recordLog (p :: ps)).length =
      (jsonMarshalBytes p).length + "\n".length + (recordLog ps).length := by
    rw [recordLog, recordLine, String.length_append, String.length_append]
  have h2 : "\n".length = 1 := by decide
  omega

lemma newHttpQueryCache_replay (cachePath : String) (w : World) (ps : List Bytes)
    (hK : 1 ≤ ps.length) (hfile : w.cacheFile = some (recordLog ps)) :
    NewHttpQueryCache cachePath true w =
      ({ CachePath := cachePath, history := ps.map jsonMarshalBytes }, w) := by
  cases ps with
  | nil => simp at hK
  | cons p ps =>
    unfold NewHttpQueryCache
    simp only [if_true, hfile, recordLog_length_pos, splitNewline_recordLog]
    have hlen : (((List.map jsonMarshalBytes (p :: ps) ++ [""]).length : Int) - 1).toNat =
        (List.map jsonMarshalBytes (p :: ps)).length := by
      simp
    have hge : ((List.map jsonMarshalBytes (p :: ps) ++ [""]).length : Int) - 1 ≥ 0 := by
      simp only [List.length_append, List.length_map, List.length_cons, List.length_nil]
      omega
    have hlast : (List.map jsonMarshalBytes (p :: ps) ++ [""]).getLast? = some "" :=
      List.getLast?_concat _
    rw [if_pos ⟨hge, hlast⟩, hlen, List.take_left']
    rfl

lemma getAll_replay (net : Network) (calls : List (String × String)) :
    ∀ (ps : List Bytes) (cachePath : String) (w : World), calls.length ≤ ps.length →
      (HttpQueryCache.GetAll net { CachePath := cachePath, history := ps.map jsonMarshalBytes }
        w calls).1 = (ps.take calls.length).map Except.ok ∧
      (HttpQueryCache.GetAll net { CachePath := cachePath, history := ps.map jsonMarshalBytes }
        w calls).2.2.requests = w.requests ∧
      (HttpQueryCache.GetAll net { CachePath := cachePath, history := ps.map jsonMarshalBytes }
        w calls).2.2.cacheFile = w.cacheFile ∧
      (HttpQueryCache.GetAll net { CachePath := cachePath, history := ps.map jsonMarshalBytes }
        w calls).2.1.history = (ps.drop calls.length).map jsonMarshalBytes := by
  induction calls with
  | nil => intro ps cachePath w _; simp [HttpQueryCache.GetAll]
  | cons c rest ih =>
    intro ps cachePath w hlen
    obtain ⟨url, ua⟩ := c
    cases ps with
    | nil => simp at hlen
    | cons p ps =>
      have hlen2 : rest.length ≤ ps.length := by simpa using hlen
      have h := ih ps cachePath
        { w with debugFile := some p, fetches := w.fetches ++ [(url, FetchOutcome.body)] } hlen2
      simp only [HttpQueryCache.GetAll, HttpQueryCache.Get, List.map_cons, json_roundtrip,
        Option.getD_some, List.length_cons, List.take_succ_cons, List.drop_succ_cons]
      exact ⟨by rw [h.1], h.2.1, h.2.2.1, h.2.2.2⟩

/-- Claim C3. A cache built in replay mode from a log of K ≥ 1 recorded
payloads answers its first K `Get` calls with exactly those payloads, in
order and without error, whatever url and user agent each call passes and
whatever the network would answer; no request is made and nothing is
appended to the log. -/
theorem replay_is_positional (net : Network) (cachePath : String) (w : World)
    (ps : List Bytes) (calls : List (String × String))
    (hK : 1 ≤ ps.length) (hfile : w.cacheFile = some (recordLog ps))
    (hn : calls.length ≤ ps.length) :
    ((NewHttpQueryCache cachePath true w).1.GetAll net (NewHttpQueryCache cachePath true w).2
      calls).1 = (ps.take calls.length).map Except.ok ∧
    ((NewHttpQueryCache cachePath true w).1.GetAll net (NewHttpQueryCache cachePath true w).2
      calls).2.2.requests = w.requests ∧
    ((NewHttpQueryCache cachePath true w).1.GetAll net (NewHttpQueryCache cachePath true w).2
      calls).2.2.cacheFile = w.cacheFile := by
  rw [newHttpQueryCache_replay cachePath w ps hK hfile]
  have h := getAll_replay net calls ps cachePath w hn
  exact ⟨h.1, h.2.1, h.2.2.1⟩

/-- Witness of C3: a log of two payloads replayed by two calls for unrelated
urls, on a network where every request fails. -/
theorem replay_is_positional_witness :
    1 ≤ [([72, 105] : Bytes), [1, 2, 3, 4]].length ∧
    exampleReplayWorld.cacheFile = some (recordLog [[72, 105], [1, 2, 3, 4]]) ∧
    ((NewHttpQueryCache "httpcache/NBA.txt" true exampleReplayWorld).1.GetAll noNetwork
      (NewHttpQueryCache "httpcache/NBA.txt" true exampleReplayWorld).2
      [("http://a.example/", "ua1"), ("http://b.example/", "ua2")]).1 =
      [Except.ok [72, 105], Except.ok [1, 2, 3, 4]] :=
  ⟨by decide, rfl,
    (replay_is_positional noNetwork "httpcache/NBA.txt" exampleReplayWorld
      [[72, 105], [1, 2, 3, 4]] [("http://a.example/", "ua1"), ("http://b.example/", "ua2")]
      (by decide) rfl (by decide)).1⟩

/-! ### Package regexp -/

/-- The five patterns of the program on sample texts. -/
theorem regexp_checks :
    nhlParseLine "1. (Last week: 1) Washington Capitals, 44-13-7" =
      some { Team := "Washington Capitals", Rank := 1 } ∧
    nhlParseLine "2. (2) Chicago Blackhawks, 42-18-5" =
      some { Team := "Chicago Blackhawks", Rank := 2 } ∧
    nhlParseLine "Power Rankings" = none ∧
    nbaParseLine "12. Dallas Mavericks" = some { Team := "Dallas Mavericks", Rank := 12 } ∧
    nbaWeekFromURLRE.FindStringSubmatch 1 "/nba/story/_/id/1/week-21-rankings-x" =
      ["week-21-rankings", "21"] ∧
    nbaWeekIDRE.FindStringSubmatch 1 "Week 3" = ["Week 3", "3"] ∧
    nbaWeekIDRE.FindStringSubmatch 1 "Camp" = ["Camp", "Camp"] ∧
    nbaWeekIDRE.FindStringSubmatch 1 "Last season" = [] ∧
    nhlWeekFromURLRE.FindStringSubmatch 1 "http://x/page/powerrankings-030617/nhl" =
      ["/page/powerrankings-030617/", "030617"] := by
  decide

lemma repStar_max (p : Char → Bool) (k : List Char → Option Caps) (xs rest : List Char)
    (r : Caps) (hall : ∀ c ∈ xs, p c = true) (hstop : ∀ c, rest.head? = some c → p c = false)
    (hk : k rest = some r) : repStar p k (xs ++ rest) = some r := by
  induction xs with
  | nil =>
    cases rest with
    | nil => simpa [repStar] using hk
    | cons c cs =>
      have := hstop c rfl
      simp [repStar, this, hk]
  | cons x xs ih =>
    have hx := hall x (List.mem_cons_self _ _)
    have := ih (fun c hc => hall c (List.mem_cons_of_mem _ hc))
    simp [repStar, hx, this]

lemma repPlus_max (p : Char → Bool) (k : List Char → Option Caps) (xs rest : List Char)
    (r : Caps) (hne : xs ≠ []) (hall : ∀ c ∈ xs, p c = true)
    (hstop : ∀ c, rest.head? = some c → p c = false)
    (hk : k rest = some r) : repPlus p k (xs ++ rest) = some r := by
  cases xs with
  | nil => exact absurd rfl hne
  | cons x xs =>
    have hx := hall x (List.mem_cons_self _ _)
    simp only [List.cons_append, repPlus, hx, if_true]
    exact repStar_max p k xs rest r (fun c hc => hall c (List.mem_cons_of_mem _ hc)) hstop hk

lemma repPlus_all (p : Char → Bool) (k : List Char → Option Caps) (xs : List Char)
    (r : Caps) (hne : xs ≠ []) (hall : ∀ c ∈ xs, p c = true)
    (hk : k [] = some r) : repPlus p k xs = some r := by
  have := repPlus_max p k xs [] r hne hall (by simp) hk
  simpa using this

lemma reRecord_not_space (c : Char) (h : reRecord c = true) : reSpace c = false := by
  simp only [reRecord, reDigit, Bool.or_eq_true, decide_eq_true_eq] at h
  simp only [reSpace, decide_eq_false_iff_not]
  rcases h with (h | h) | h
  · omega
  · subst h; decide
  · subst h; decide

lemma nhl_tail_run (total : Nat) (caps final : Caps) (k : List Char → Caps → Option Caps)
    (record : Option (List Char × List Char))
    (hrec : ∀ ws3 rec, record = some (ws3, rec) →
      ws3 ≠ [] ∧ (∀ c ∈ ws3, reSpace c = true) ∧ rec ≠ [] ∧ ∀ c ∈ rec, reRecord c = true)
    (hk : k [] caps = some final) :
    Regex.run total (Regex.seq (Regex.opt nhlRecordRE) (Regex.seq (Regex.star reSpace) Regex.eol))
      (nhlRecordText record) caps k = some final := by
  cases record with
  | none => simp [Regex.run, nhlRecordRE, nhlRecordText, repStar, hk]
  | some q =>
    obtain ⟨ws3, rec⟩ := q
    obtain ⟨h1, h2, h3, h4⟩ := hrec ws3 rec rfl
    simp only [Regex.run, nhlRecordRE, nhlRecordText, if_true]
    rw [repPlus_max _ _ ws3 rec final h1 h2]
    · intro c hc
      cases rec with
      | nil => simp at hc
      | cons x xs =>
        simp only [List.head?_cons, Option.some.injEq] at hc
        subst hc
        exact reRecord_not_space _ (h4 _ (List.mem_cons_self _ _))
    · exact repPlus_all _ _ rec final h3 h4 (by simp [repStar, hk])

lemma take_prefix_length (xs rest : List Char) :
    (xs ++ rest).take ((xs ++ rest).length - rest.length) = xs := by
  simp

lemma nhl_team_run (total : Nat) (caps final : Caps) (k : List Char → Caps → Option Caps)
    (t : List Char) (record : Option (List Char × List Char))
    (ht : t ≠ [] ∧ ',' ∉ t)
    (hrec : ∀ ws3 rec, record = some (ws3, rec) →
      ws3 ≠ [] ∧ (∀ c ∈ ws3, reSpace c = true) ∧ rec ≠ [] ∧ ∀ c ∈ rec, reRecord c = true)
    (hk : k [] ((2, t) :: caps) = some final) :
    Regex.run total
      (Regex.seq (Regex.group 2 (Regex.plus reNotComma))
        (Regex.seq (Regex.opt nhlRecordRE) (Regex.seq (Regex.star reSpace) Regex.eol)))
      (t ++ (nhlRecordText record)) caps k = some final := by
  rw [Regex.run, Regex.run, Regex.run]
  refine repPlus_max _ _ t _ final ht.1 ?_ ?_ ?_
  · intro c hc
    have : ¬ c = ',' := fun e => ht.2 (e ▸ hc)
    simp [reNotComma, this]
  · intro c hc
    cases record with
    | none => simp [nhlRecordText] at hc
    | some q =>
      obtain ⟨ws3, rec⟩ := q
      simp only [nhlRecordText, List.head?_cons, Option.some.injEq] at hc
      subst hc
      simp [reNotComma]
  · simp only [take_prefix_length]
    exact nhl_tail_run total _ final k record hrec hk

lemma nhl_prior_some (total : Nat) (caps final : Caps) (K : List Char → Caps → Option Caps)
    (tok ws2 rest : List Char) (h1 : tok ≠ []) (h2 : ')' ∉ tok) (h3 : ws2 ≠ [])
    (h4 : ∀ c ∈ ws2, reSpace c = true) (hstop : ∀ c, rest.head? = some c → reSpace c = false)
    (hK : K rest caps = some final) :
    Regex.run total nhlPriorRE (nhlPriorText (some (tok, ws2)) ++ rest) caps K = some final := by
  simp only [nhlPriorRE, nhlPriorText, Regex.run, List.cons_append, List.append_assoc, if_true]
  refine repPlus_max _ _ tok _ final h1 ?_ ?_ ?_
  · intro c hc
    have : ¬ c = ')' := fun e => h2 (e ▸ hc)
    simp [reNotParen, this]
  · intro c hc
    simp only [List.head?_cons, Option.some.injEq] at hc
    subst hc
    simp [reNotParen]
  · simp only [if_true]
    exact repPlus_max _ _ ws2 _ final h3 h4 hstop hK

lemma nhl_prior_none (total : Nat) (caps : Caps) (K : List Char → Caps → Option Caps)
    (c0 : Char) (rest : List Char) (hc0 : c0 ≠ '(') :
    Regex.run total nhlPriorRE (c0 :: rest) caps K = none := by
  simp [nhlPriorRE, Regex.run, hc0]

lemma nhl_prior_run (total : Nat) (caps final : Caps) (k : List Char → Caps → Option Caps)
    (prior : Option (List Char × List Char)) (t : List Char)
    (record : Option (List Char × List Char))
    (hprior : ∀ tok ws2, prior = some (tok, ws2) →
      tok ≠ [] ∧ ')' ∉ tok ∧ ws2 ≠ [] ∧ ∀ c ∈ ws2, reSpace c = true)
    (ht : t ≠ [] ∧ ',' ∉ t ∧ ∀ c, t.head? = some c → reSpace c = false ∧ c ≠ '(')
    (hrec : ∀ ws3 rec, record = some (ws3, rec) →
      ws3 ≠ [] ∧ (∀ c ∈ ws3, reSpace c = true) ∧ rec ≠ [] ∧ ∀ c ∈ rec, reRecord c = true)
    (hk : k [] ((2, t) :: caps) = some final) :
    Regex.run total
      (Regex.seq (Regex.opt nhlPriorRE)
        (Regex.seq (Regex.group 2 (Regex.plus reNotComma))
          (Regex.seq (Regex.opt nhlRecordRE) (Regex.seq (Regex.star reSpace) Regex.eol))))
      (nhlPriorText prior ++ (t ++ nhlRecordText record)) caps k = some final := by
  have hteam := nhl_team_run total caps final k t record ⟨ht.1, ht.2.1⟩ hrec hk
  obtain ⟨c0, t0, rfl⟩ := List.exists_cons_of_ne_nil ht.1
  have hc0 := ht.2.2 c0 rfl
  cases prior with
  | none =>
    rw [Regex.run, Regex.run]
    simp only [nhlPriorText, List.nil_append, List.cons_append]
    rw [nhl_prior_none total caps _ c0 _ hc0.2]
    exact hteam
  | some q =>
    obtain ⟨tok, ws2⟩ := q
    obtain ⟨h1, h2, h3, h4⟩ := hprior tok ws2 rfl
    rw [Regex.run, Regex.run]
    rw [nhl_prior_some total caps final _ tok ws2 _ h1 h2 h3 h4 ?_ hteam]
    intro c hc
    simp only [List.cons_append, List.head?_cons, Option.some.injEq] at hc
    subst hc
    exact hc0.1

lemma nhl_line_run (r ws1 : List Char) (prior : Option (List Char × List Char))
    (t : List Char) (record : Option (List Char × List Char))
    (hr : r ≠ [] ∧ ∀ c ∈ r, reDigit c = true)
    (hws1 : ws1 ≠ [] ∧ ∀ c ∈ ws1, reSpace c = true)
    (hprior : ∀ tok ws2, prior = some (tok, ws2) →
      tok ≠ [] ∧ ')' ∉ tok ∧ ws2 ≠ [] ∧ ∀ c ∈ ws2, reSpace c = true)
    (ht : t ≠ [] ∧ ',' ∉ t ∧ ∀ c, t.head? = some c → reSpace c = false ∧ c ≠ '(')
    (hrec : ∀ ws3 rec, record = some (ws3, rec) →
      ws3 ≠ [] ∧ (∀ c ∈ ws3, reSpace c = true) ∧ rec ≠ [] ∧ ∀ c ∈ rec, reRecord c = true) :
    Regex.search nhlRankRE (nhlLine r ws1 prior t record).length (nhlLine r ws1 prior t record) =
      some [(0, nhlLine r ws1 prior t record), (2, t), (1, r)] := by
  obtain ⟨c0, r0, rfl⟩ := List.exists_cons_of_ne_nil hr.1
  have hline : nhlLine (c0 :: r0) ws1 prior t record =
      c0 :: (r0 ++ '.' :: (ws1 ++ (nhlPriorText prior ++ (t ++ nhlRecordText record)))) := rfl
  have hrun : Regex.run (nhlLine (c0 :: r0) ws1 prior t record).length nhlRankRE
      (nhlLine (c0 :: r0) ws1 prior t record) []
      (fun s1 caps1 => some ((0, (nhlLine (c0 :: r0) ws1 prior t record).take
        ((nhlLine (c0 :: r0) ws1 prior t record).length - s1.length)) :: caps1)) =
      some [(0, nhlLine (c0 :: r0) ws1 prior t record), (2, t), (1, c0 :: r0)] := by
    rw [nhlRankRE, Regex.run, Regex.run, if_pos rfl, Regex.run, Regex.run, Regex.run]
    have hsplit : nhlLine (c0 :: r0) ws1 prior t record =
        (c0 :: r0) ++ '.' :: (ws1 ++ (nhlPriorText prior ++ (t ++ nhlRecordText record))) := rfl
    rw [hsplit]
    refine repPlus_max _ _ (c0 :: r0) _ _ hr.1 hr.2 ?_ ?_
    · intro c hc
      simp only [List.head?_cons, Option.some.injEq] at hc
      subst hc
      decide
    · simp only [take_prefix_length]
      rw [Regex.run, Regex.run]
      simp only [if_true]
      rw [Regex.run, Regex.run]
      refine repPlus_max _ _ ws1 _ _ hws1.1 hws1.2 ?_ ?_
      · intro c hc
        cases prior with
        | none =>
          obtain ⟨c1, t1, rfl⟩ := List.exists_cons_of_ne_nil ht.1
          simp only [nhlPriorText, List.nil_append, List.cons_append, List.head?_cons,
            Option.some.injEq] at hc
          subst hc
          exact (ht.2.2 c1 rfl).1
        | some q =>
          obtain ⟨tok, ws2⟩ := q
          simp only [nhlPriorText, List.cons_append, List.head?_cons, Option.some.injEq] at hc
          subst hc
          decide
      · refine nhl_prior_run _ _ _ _ prior t record hprior ht hrec ?_
        simp
  rw [hline] at hrun ⊢
  rw [Regex.search, hrun]

/-- Counterexample to C8 as stated: a rank of nineteen digits is not parsed
to its value (`I` drops the range error of `strconv.Atoi` and keeps the
clamped result), an empty prior-rank token is not discarded but becomes part
of the team name, and a line whose blank is a no-break space is not parsed
at all. -/
theorem nhl_line_parse_fails :
    nhlLine "9223372036854775808".data " ".data none "Foo".data none =
      "9223372036854775808. Foo".data ∧
    decimalValue "9223372036854775808".data = 9223372036854775808 ∧
    nhlParseLine "9223372036854775808. Foo" =
      some { Team := "Foo", Rank := 9223372036854775807 } ∧
    nhlLine "1".data " ".data (some ([], " ".data)) "Foo".data none = "1. () Foo".data ∧
    nhlParseLine "1. () Foo" = some { Team := "() Foo", Rank := 1 } ∧
    unicodeIsSpace (Char.ofNat 160) = true ∧
    nhlParseLine (String.mk (nhlLine "1".data [Char.ofNat 160] none "Foo".data none)) = none := by
  decide

/-- Claim C8, amended. The NHL ranking-line parse yields rank 31 and team
Vegas Golden Knights for the line of rank 31, rank 12 and team Montreal
Canadiens for the line of rank 12; and for every line made of a decimal rank,
a period, blanks, an optional parenthesised non-empty prior-rank token
without a closing parenthesis followed by blanks, a team name without a
comma that starts with neither a blank nor an opening parenthesis, and an
optional suffix of a comma, blanks and a record of digits, dashes and
periods, the parse succeeds with exactly that team and with the value of the
rank, capped at the largest 64-bit integer. -/
theorem nhl_line_parse (r ws1 : List Char) (prior : Option (List Char × List Char))
    (t : List Char) (record : Option (List Char × List Char))
    (hr : r ≠ [] ∧ ∀ c ∈ r, reDigit c = true)
    (hws1 : ws1 ≠ [] ∧ ∀ c ∈ ws1, reSpace c = true)
    (hprior : ∀ tok ws2, prior = some (tok, ws2) →
      tok ≠ [] ∧ ')' ∉ tok ∧ ws2 ≠ [] ∧ ∀ c ∈ ws2, reSpace c = true)
    (ht : t ≠ [] ∧ ',' ∉ t ∧ ∀ c, t.head? = some c → reSpace c = false ∧ c ≠ '(')
    (hrec : ∀ ws3 rec, record = some (ws3, rec) →
      ws3 ≠ [] ∧ (∀ c ∈ ws3, reSpace c = true) ∧ rec ≠ [] ∧ ∀ c ∈ rec, reRecord c = true) :
    nhlParseLine "31. (N/A) Vegas Golden Knights" =
      some { Team := "Vegas Golden Knights", Rank := 31 } ∧
    nhlParseLine "12. (16) Montreal Canadiens, 37-21-8." =
      some { Team := "Montreal Canadiens", Rank := 12 } ∧
    nhlParseLine (String.mk (nhlLine r ws1 prior t record)) =
      some { Team := String.mk t,
             Rank := ((min (decimalValue r) 9223372036854775807 : Nat) : Int) } := by
  refine ⟨by decide, by decide, ?_⟩
  have hrun := nhl_line_run r ws1 prior t record hr hws1 hprior ht hrec
  have hI := I_digits r hr.1 hr.2
  unfold nhlParseLine Regex.FindStringSubmatch
  simp only [hrun]
  simp [List.range_succ, List.lookup, hI]

/-- Witness of C8, amended: the line of rank 12, with prior rank and record. -/
theorem nhl_line_parse_witness :
    nhlLine "12".data " ".data (some ("16".data, " ".data)) "Montreal Canadiens".data
      (some (" ".data, "37-21-8.".data)) = "12. (16) Montreal Canadiens, 37-21-8.".data ∧
    nhlParseLine (String.mk (nhlLine "12".data " ".data (some ("16".data, " ".data))
      "Montreal Canadiens".data (some (" ".data, "37-21-8.".data)))) =
      some { Team := String.mk "Montreal Canadiens".data,
             Rank := ((min (decimalValue "12".data) 9223372036854775807 : Nat) : Int) } :=
  ⟨by decide,
    (nhl_line_parse "12".data " ".data (some ("16".data, " ".data)) "Montreal Canadiens".data
      (some (" ".data, "37-21-8.".data)) (by decide) (by decide)
      (by
        intro tok ws2 h
        simp only [Option.some.injEq, Prod.mk.injEq] at h
        obtain ⟨rfl, rfl⟩ := h
        decide)
      (by decide)
      (by
        intro ws3 rec h
        simp only [Option.some.injEq, Prod.mk.injEq] at h
        obtain ⟨rfl, rfl⟩ := h
        decide)).2.2⟩

/-! ### The report export -/

/-- The report of week 1 of the example season, and a record that needs
quoting. -/
theorem csv_checks :
    exampleScraperUtil.ToCSV "1" =
      (some "league,week,team,rank\nNBA,1,San Antonio Spurs,2\nNBA,1,Golden State Warriors,1\n",
        none) ∧
    csvRecord ["a,b", " x", "say \"hi\""] = "\"a,b\",\" x\",\"say \"\"hi\"\"\"\n" := by
  decide

lemma csv_fold (rows : List (List String)) :
    ∀ outb : String, rows.foldl csvWrite outb = outb ++ csvEncoding rows := by
  induction rows with
  | nil => intro outb; simp [csvEncoding]
  | cons row rows ih =>
    intro outb
    simp only [List.foldl_cons, ih, csvWrite, csvEncoding, String.append_assoc]

/-- Claim C4. `ToCSV` of a week id the season does not hold returns an error
and no bytes. Otherwise it returns no error and the CSV encoding of the
header row followed by one row per ranking entry of the week found, in
stored order, each row the league, the requested week id, the team and the
rank in decimal; for a week record that `UpdateWeekItem` placed (the record
with its rankings sorted) the rows are in ascending rank order. -/
theorem toCSV_export (ss : ScraperUtil) (weekID : String) :
    (weekID ∉ ss.season.weekIDs →
      ss.ToCSV weekID = (none, some ("week not found: '" ++ weekID ++ "'"))) ∧
    (weekID ∈ ss.season.weekIDs →
      ∃ item, ss.season.GetWeekItem weekID = some item ∧ item ∈ ss.season.WeekItems ∧
        item.WeekID = weekID ∧
        ss.ToCSV weekID =
          (some (csvEncoding (["league", "week", "team", "rank"] ::
            item.Rankings.map (fun v => [ss.league, weekID, v.Team, S v.Rank]))), none) ∧
        (item.Rankings.map (fun v => [ss.league, weekID, v.Team, S v.Rank])).length =
          item.Rankings.length ∧
        ∀ (srt : SliceSort) (w : WeekItem), IsSliceSort srt → item = w.SortRankings srt →
          List.Pairwise (fun a b : RankItem => a.Rank ≤ b.Rank) item.Rankings) := by
  refine ⟨?_, ?_⟩
  · intro h
    have := (getWeekItem_none ss.season weekID).2 h
    simp [ScraperUtil.ToCSV, this]
  · intro h
    cases hg : ss.season.GetWeekItem weekID with
    | none => exact absurd h ((getWeekItem_none ss.season weekID).1 hg)
    | some item =>
      have hhead := getWeekItem_eq_head ss.season weekID
      rw [hg] at hhead
      have hmemf : item ∈ ss.season.WeekItems.filter (fun x => decide (x.WeekID = weekID)) :=
        List.mem_of_mem_head? hhead.symm
      rw [List.mem_filter] at hmemf
      refine ⟨item, rfl, hmemf.1, by simpa using hmemf.2, ?_, by simp, ?_⟩
      · simp only [ScraperUtil.ToCSV, hg]
        have hf : ∀ (l : List RankItem) (outb : String),
            l.foldl (fun outb v => csvWrite outb [ss.league, weekID, v.Team, S v.Rank]) outb =
              (l.map (fun v => [ss.league, weekID, v.Team, S v.Rank])).foldl csvWrite outb := by
          intro l
          induction l with
          | nil => intro outb; rfl
          | cons v vs ih => intro outb; simp only [List.foldl_cons, List.map_cons, ih]
        rw [hf, csv_fold]
        simp [csvWrite, csvEncoding]
      · intro srt w hs he
        subst he
        refine ((hs RankItem rankLess w.Rankings).2 rankLess_contract).imp ?_
        intro a b hab
        simpa [rankLess] using hab

/-- Witness of C4 on the example season: week 9 is not held, week 1 is. -/
theorem toCSV_export_witness :
    "9" ∉ exampleScraperUtil.season.weekIDs ∧
    exampleScraperUtil.ToCSV "9" = (none, some "week not found: '9'") ∧
    "1" ∈ exampleScraperUtil.season.weekIDs ∧
    (∃ item, exampleScraperUtil.season.GetWeekItem "1" = some item ∧
      exampleScraperUtil.ToCSV "1" =
        (some (csvEncoding (["league", "week", "team", "rank"] ::
          item.Rankings.map (fun v => ["NBA", "1", v.Team, S v.Rank]))), none)) :=
  ⟨by decide, (toCSV_export exampleScraperUtil "9").1 (by decide), by decide,
    let ⟨item, h1, _, _, h4, _⟩ := (toCSV_export exampleScraperUtil "1").2 (by decide)
    ⟨item, h1, h4⟩⟩

/-! ### The scrapers -/

lemma newGoQuery_facts (env : Env) (ss : ScraperUtil) (w : World) (url : String) :
    (ss.NewGoQuery env w url).2.1.season = ss.season ∧
    (ss.NewGoQuery env w url).2.1.logBuffer = ss.logBuffer ∧
    Frame w (ss.NewGoQuery env w url).2.2 [(url, outcomeOf (ss.NewGoQuery env w url).1)] ∧
    (ss.NewGoQuery env w url).2.2.clockReads = w.clockReads := by
  unfold ScraperUtil.NewGoQuery HttpQueryCache.Get Frame
  cases ss.cache.history with
  | nil =>
    simp only
    cases env.net w.requests.length url defaultUA <;> simp [outcomeOf]
  | cons js rest => simp [outcomeOf]

lemma frame_trans (w w1 w2 : World) (tr1 tr2 : List (String × FetchOutcome))
    (h1 : Frame w w1 tr1) (h2 : Frame w1 w2 tr2) : Frame w w2 (tr1 ++ tr2) := by
  obtain ⟨a1, b1, c1, d1⟩ := h1
  obtain ⟨a2, b2, c2, d2⟩ := h2
  exact ⟨by rw [a2, a1, List.append_assoc], b2.trans b1, c2.trans c1, d2.trans d1⟩

lemma endsAs_error {α : Type} (e : GoError) :
    EndsAs (some e) (outcomeOf (Except.error e : Except GoError α)) := by
  cases e with
  | err m => exact ⟨m, rfl⟩
  | panic m => exact ⟨m, rfl⟩

lemma endsAs_errex (step context : String) (err : Option GoError) (o : FetchOutcome)
    (h : EndsAs err o) : EndsAs (errex step context err) o := by
  cases o with
  | body =>
    have : err = none := h
    subst this
    rfl
  | failed =>
    obtain ⟨m, rfl⟩ := h
    exact ⟨_, rfl⟩
  | panicked =>
    obtain ⟨m, rfl⟩ := h
    exact ⟨_, rfl⟩

lemma endsAs_none (o : FetchOutcome) (h : EndsAs none o) : o = FetchOutcome.body := by
  cases o with
  | body => rfl
  | failed => obtain ⟨m, hm⟩ := h; exact absurd hm (by simp)
  | panicked => obtain ⟨m, hm⟩ := h; exact absurd hm (by simp)

lemma nba_home_frame (env : Env) (pr : NBAScraper) (w : World) :
    ∃ o, Frame w (pr.ScrapeHomePage env w).2.2 [("http://www.espn.com/nba/", o)] ∧
      EndsAs (pr.ScrapeHomePage env w).1 o := by
  have hf := newGoQuery_facts env pr.scraper w "http://www.espn.com/nba/"
  unfold NBAScraper.ScrapeHomePage
  simp only
  rcases h : pr.scraper.NewGoQuery env w "http://www.espn.com/nba/" with ⟨res, sc, w1⟩
  rw [h] at hf
  cases res with
  | error e => exact ⟨_, hf.2.2.1, endsAs_errex _ _ _ _ (endsAs_error e)⟩
  | ok doc =>
    simp only [outcomeOf] at hf
    refine ⟨FetchOutcome.body, ?_, ?_⟩
    · simp only
      split <;> exact hf.2.2.1
    · simp only
      split <;> rfl

lemma nhl_home_frame (env : Env) (pr : NHLScraper) (w : World) :
    ∃ o, Frame w (pr.ScrapeHomePage env w).2.2 [("http://www.espn.com/nhl/", o)] ∧
      EndsAs (pr.ScrapeHomePage env w).1 o := by
  have hf := newGoQuery_facts env pr.scraper w "http://www.espn.com/nhl/"
  unfold NHLScraper.ScrapeHomePage
  simp only
  rcases h : pr.scraper.NewGoQuery env w "http://www.espn.com/nhl/" with ⟨res, sc, w1⟩
  rw [h] at hf
  cases res with
  | error e => exact ⟨_, hf.2.2.1, endsAs_errex _ _ _ _ (endsAs_error e)⟩
  | ok doc =>
    simp only [outcomeOf] at hf
    refine ⟨FetchOutcome.body, ?_, ?_⟩
    · simp only
      split <;> exact hf.2.2.1
    · simp only
      split <;> rfl

lemma nba_page_frame (env : Env) (pr : NBAScraper) (w : World) (week url : String) :
    ∃ o, Frame w (pr.ScrapeRankingPage env w week url).2.2 [(url, o)] ∧
      EndsAs (pr.ScrapeRankingPage env w week url).1 o := by
  have hf := newGoQuery_facts env pr.scraper w url
  unfold NBAScraper.ScrapeRankingPage
  rcases h : pr.scraper.NewGoQuery env w url with ⟨res, sc, w1⟩
  rw [h] at hf
  cases res with
  | error e => exact ⟨_, hf.2.2.1, endsAs_errex _ _ _ _ (endsAs_error e)⟩
  | ok doc =>
    simp only [outcomeOf] at hf
    refine ⟨FetchOutcome.body, ?_, ?_⟩
    · simp only
      split_ifs <;> exact hf.2.2.1
    · simp only
      split_ifs <;> rfl

lemma nhl_page_frame (env : Env) (pr : NHLScraper) (w : World) (week url : String) :
    ∃ o, Frame w (pr.ScrapeRankingPage env w week url).2.2 [(url, o)] ∧
      EndsAs (pr.ScrapeRankingPage env w week url).1 o := by
  have hf := newGoQuery_facts env pr.scraper w url
  unfold NHLScraper.ScrapeRankingPage
  rcases h : pr.scraper.NewGoQuery env w url with ⟨res, sc, w1⟩
  rw [h] at hf
  cases res with
  | error e => exact ⟨_, hf.2.2.1, endsAs_errex _ _ _ _ (endsAs_error e)⟩
  | ok doc =>
    simp only [outcomeOf] at hf
    refine ⟨FetchOutcome.body, ?_, ?_⟩
    · simp only
      split_ifs <;> exact hf.2.2.1
    · simp only
      split_ifs <;> rfl

lemma stops_single (err : Option GoError) (u : String) (o : FetchOutcome) (h : EndsAs err o) :
    StopsAtFailure err [(u, o)] := by
  refine ⟨by simp, ?_, ?_, ?_⟩
  · intro he e hmem
    simp only [List.mem_singleton] at hmem
    subst hmem
    subst he
    exact endsAs_none o h
  · intro e hmem hf
    simp only [List.mem_singleton] at hmem
    subst hmem
    simp only at hf
    subst hf
    exact h
  · intro e hmem hf
    simp only [List.mem_singleton] at hmem
    subst hmem
    simp only at hf
    subst hf
    exact h

lemma stops_all_body (err : Option GoError) (tr : List (String × FetchOutcome))
    (h : ∀ e ∈ tr, e.2 = FetchOutcome.body) : StopsAtFailure err tr := by
  refine ⟨fun e he => h e (List.dropLast_subset _ he), fun _ => h, ?_, ?_⟩
  · intro e he hf
    rw [h e he] at hf
    exact absurd hf (by simp)
  · intro e he hf
    rw [h e he] at hf
    exact absurd hf (by simp)

lemma stops_append (err : Option GoError) (tr1 tr2 : List (String × FetchOutcome))
    (h1 : ∀ e ∈ tr1, e.2 = FetchOutcome.body) (h2 : StopsAtFailure err tr2) :
    StopsAtFailure err (tr1 ++ tr2) := by
  refine ⟨?_, ?_, ?_, ?_⟩
  · intro e he
    cases tr2 with
    | nil =>
      rw [List.append_nil] at he
      exact h1 e (List.dropLast_subset _ he)
    | cons x xs =>
      rw [List.dropLast_append_of_ne_nil _ (by simp)] at he
      rcases List.mem_append.1 he with h | h
      · exact h1 e h
      · exact h2.1 e h
  · intro hn e he
    rcases List.mem_append.1 he with h | h
    · exact h1 e h
    · exact h2.2.1 hn e h
  · intro e he hf
    rcases List.mem_append.1 he with h | h
    · rw [h1 e h] at hf
      exact absurd hf (by simp)
    · exact h2.2.2.1 e h hf
  · intro e he hf
    rcases List.mem_append.1 he with h | h
    · rw [h1 e h] at hf
      exact absurd hf (by simp)
    · exact h2.2.2.2 e h hf

lemma nba_weeks_frame (env : Env) (m : URLMap) :
    ∀ (pr : NBAScraper) (w : World),
      ∃ tr, Frame w (NBAScraper.scrapeWeeks env pr w m).2.2 tr ∧
        StopsAtFailure (NBAScraper.scrapeWeeks env pr w m).1 tr := by
  induction m with
  | nil =>
    intro pr w
    exact ⟨[], ⟨by simp [NBAScraper.scrapeWeeks], rfl, rfl, rfl⟩,
      stops_all_body _ _ (by simp)⟩
  | cons kv rest ih =>
    intro pr w
    obtain ⟨k, v⟩ := kv
    unfold NBAScraper.scrapeWeeks
    by_cases hk : k = pr.currentWeek
    · rw [if_pos hk]
      exact ih pr w
    · rw [if_neg hk]
      obtain ⟨o, hfr, hends⟩ := nba_page_frame env pr w k v
      rcases h : pr.ScrapeRankingPage env w k v with ⟨err, pr1, w1⟩
      rw [h] at hfr hends
      cases err with
      | some e => exact ⟨[(v, o)], hfr, stops_single _ v o (endsAs_errex _ _ _ _ hends)⟩
      | none =>
        obtain ⟨tr, hfr2, hst⟩ := ih pr1 w1
        have hbody : o = FetchOutcome.body := endsAs_none o hends
        refine ⟨[(v, o)] ++ tr, frame_trans _ _ _ _ _ hfr hfr2, stops_append _ _ _ ?_ hst⟩
        intro e he
        simp only [List.mem_singleton] at he
        subst he
        exact hbody

lemma updateDB_fetches (env : Env) (ss : ScraperUtil) (w : World) :
    (ss.UpdateDB env w).2.fetches = w.fetches := by
  unfold ScraperUtil.UpdateDB
  cases w.dbWriteError <;> rfl

lemma not_all_body (tr : List (String × FetchOutcome)) (h : ∀ e ∈ tr, e.2 = FetchOutcome.body) :
    ¬ ∃ e ∈ tr, e.2 ≠ FetchOutcome.body := by
  rintro ⟨e, he, hf⟩
  exact hf (h e he)

lemma nba_scrape_frame (env : Env) (pr : NBAScraper) (w : World) :
    ∃ tr, (pr.Scrape env w).2.2.fetches = w.fetches ++ tr ∧
      StopsAtFailure (pr.Scrape env w).1 tr ∧
      ((∃ e ∈ tr, e.2 ≠ FetchOutcome.body) →
        (pr.Scrape env w).2.2.dbFile = w.dbFile ∧ (pr.Scrape env w).2.2.dbWrites = w.dbWrites) ∧
      ((pr.ScrapeHomePage env w).1 = none → (pr.ScrapeHomePage env w).2.1.weekURLMap = [] →
        (∃ m, (pr.Scrape env w).1 = some (GoError.err m)) ∧
        (pr.Scrape env w).2.2.dbFile = w.dbFile ∧ (pr.Scrape env w).2.2.dbWrites = w.dbWrites ∧
        tr.length = 1) := by
  obtain ⟨o0, hfr0, hends0⟩ := nba_home_frame env pr w
  rcases h0 : pr.ScrapeHomePage env w with ⟨err0, pr1, w1⟩
  rw [h0] at hfr0 hends0
  simp only at hfr0 hends0
  cases err0 with
  | some e =>
    refine ⟨[("http://www.espn.com/nba/", o0)], ?_, ?_, ?_, ?_⟩
    · simp only [NBAScraper.Scrape, h0]
      exact hfr0.1
    · simp only [NBAScraper.Scrape, h0]
      exact stops_single _ _ _ (endsAs_errex _ _ _ _ hends0)
    · intro _
      simp only [NBAScraper.Scrape, h0]
      exact ⟨hfr0.2.1, hfr0.2.2.1⟩
    · intro hnone
      exact absurd hnone (by simp)
  | none =>
    have hbody : o0 = FetchOutcome.body := endsAs_none o0 hends0
    subst hbody
    by_cases hlen : pr1.weekURLMap.length = 0
    · refine ⟨[("http://www.espn.com/nba/", FetchOutcome.body)], ?_, ?_, ?_, ?_⟩
      · simp only [NBAScraper.Scrape, h0, hlen, if_true]
        exact hfr0.1
      · exact stops_all_body _ _ (by simp)
      · intro _
        simp only [NBAScraper.Scrape, h0, hlen, if_true]
        exact ⟨hfr0.2.1, hfr0.2.2.1⟩
      · intro _ _
        simp only [NBAScraper.Scrape, h0, hlen, if_true]
        exact ⟨⟨_, rfl⟩, hfr0.2.1, hfr0.2.2.1, rfl⟩
    · have hmap : ¬ pr1.weekURLMap = [] := fun h => hlen (by rw [h]; rfl)
      obtain ⟨o1, hfr1, hends1⟩ := nba_page_frame env pr1 w1 pr1.currentWeek
        (mapGet pr1.weekURLMap pr1.currentWeek)
      rcases h1 : pr1.ScrapeRankingPage env w1 pr1.currentWeek
        (mapGet pr1.weekURLMap pr1.currentWeek) with ⟨err1, pr2, w2⟩
      rw [h1] at hfr1 hends1
      simp only at hfr1 hends1
      have hfr01 := frame_trans _ _ _ _ _ hfr0 hfr1
      have hpre0 : ∀ e ∈ [("http://www.espn.com/nba/", FetchOutcome.body)],
          e.2 = FetchOutcome.body := by
        intro e he
        simp only [List.mem_singleton] at he
        subst he
        rfl
      cases err1 with
      | some e =>
        refine ⟨[("http://www.espn.com/nba/", FetchOutcome.body)] ++
          [(mapGet pr1.weekURLMap pr1.currentWeek, o1)], ?_, ?_, ?_, fun _ h => absurd h hmap⟩
        · simp only [NBAScraper.Scrape, h0, hlen, if_false, h1]
          exact hfr01.1
        · simp only [NBAScraper.Scrape, h0, hlen, if_false, h1]
          exact stops_append _ _ _ hpre0 (stops_single _ _ _ (endsAs_errex _ _ _ _ hends1))
        · intro _
          simp only [NBAScraper.Scrape, h0, hlen, if_false, h1]
          exact ⟨hfr01.2.1, hfr01.2.2.1⟩
      | none =>
        have hbody : o1 = FetchOutcome.body := endsAs_none o1 hends1
        subst hbody
        obtain ⟨tr2, hfr2, hst2⟩ := nba_weeks_frame env (env.mapOrder pr2.weekURLMap) pr2 w2
        rcases h2 : NBAScraper.scrapeWeeks env pr2 w2 (env.mapOrder pr2.weekURLMap) with
          ⟨err2, pr3, w3⟩
        rw [h2] at hfr2 hst2
        simp only at hfr2 hst2
        have hfr012 := frame_trans _ _ _ _ _ hfr01 hfr2
        have hpre : ∀ e ∈ [("http://www.espn.com/nba/", FetchOutcome.body)] ++
            [(mapGet pr1.weekURLMap pr1.currentWeek, FetchOutcome.body)],
            e.2 = FetchOutcome.body := by
          intro e he
          simp only [List.mem_append, List.mem_singleton] at he
          rcases he with rfl | rfl <;> rfl
        cases err2 with
        | some e =>
          refine ⟨[("http://www.espn.com/nba/", FetchOutcome.body)] ++
            [(mapGet pr1.weekURLMap pr1.currentWeek, FetchOutcome.body)] ++ tr2, ?_, ?_, ?_,
            fun _ h => absurd h hmap⟩
          · simp only [NBAScraper.Scrape, h0, hlen, if_false, h1, h2]
            exact hfr012.1
          · simp only [NBAScraper.Scrape, h0, hlen, if_false, h1, h2]
            exact stops_append _ _ _ hpre hst2
          · intro _
            simp only [NBAScraper.Scrape, h0, hlen, if_false, h1, h2]
            exact ⟨hfr012.2.1, hfr012.2.2.1⟩
        | none =>
          have hall : ∀ e ∈ [("http://www.espn.com/nba/", FetchOutcome.body)] ++
              [(mapGet pr1.weekURLMap pr1.currentWeek, FetchOutcome.body)] ++ tr2,
              e.2 = FetchOutcome.body := by
            intro e he
            rcases List.mem_append.1 he with h | h
            · exact hpre e h
            · exact hst2.2.1 rfl e h
          refine ⟨[("http://www.espn.com/nba/", FetchOutcome.body)] ++
            [(mapGet pr1.weekURLMap pr1.currentWeek, FetchOutcome.body)] ++ tr2, ?_, ?_, ?_,
            fun _ h => absurd h hmap⟩
          · simp only [NBAScraper.Scrape, h0, hlen, if_false, h1, h2, updateDB_fetches]
            exact hfr012.1
          · exact stops_all_body _ _ hall
          · intro hfail
            exact absurd hfail (not_all_body _ hall)

lemma nhl_scrape_frame (env : Env) (pr : NHLScraper) (w : World) :
    ∃ tr, (pr.Scrape env w).2.2.fetches = w.fetches ++ tr ∧
      StopsAtFailure (pr.Scrape env w).1 tr ∧
      ((∃ e ∈ tr, e.2 ≠ FetchOutcome.body) →
        (pr.Scrape env w).2.2.dbFile = w.dbFile ∧ (pr.Scrape env w).2.2.dbWrites = w.dbWrites) ∧
      ((pr.ScrapeHomePage env w).1 = none → (pr.ScrapeHomePage env w).2.1.weekURLMap = [] →
        (∃ m, (pr.Scrape env w).1 = some (GoError.err m)) ∧
        (pr.Scrape env w).2.2.dbFile = w.dbFile ∧ (pr.Scrape env w).2.2.dbWrites = w.dbWrites ∧
        tr.length = 1) := by
  obtain ⟨o0, hfr0, hends0⟩ := nhl_home_frame env pr w
  rcases h0 : pr.ScrapeHomePage env w with ⟨err0, pr1, w1⟩
  rw [h0] at hfr0 hends0
  simp only at hfr0 hends0
  cases err0 with
  | some e =>
    refine ⟨[("http://www.espn.com/nhl/", o0)], ?_, ?_, ?_, ?_⟩
    · simp only [NHLScraper.Scrape, h0]
      exact hfr0.1
    · simp only [NHLScraper.Scrape, h0]
      exact stops_single _ _ _ (endsAs_errex _ _ _ _ hends0)
    · intro _
      simp only [NHLScraper.Scrape, h0]
      exact ⟨hfr0.2.1, hfr0.2.2.1⟩
    · intro hnone
      exact absurd hnone (by simp)
  | none =>
    have hbody : o0 = FetchOutcome.body := endsAs_none o0 hends0
    subst hbody
    by_cases hlen : pr1.weekURLMap.length = 0
    · refine ⟨[("http://www.espn.com/nhl/", FetchOutcome.body)], ?_, ?_, ?_, ?_⟩
      · simp only [NHLScraper.Scrape, h0, hlen, if_true]
        exact hfr0.1
      · exact stops_all_body _ _ (by simp)
      · intro _
        simp only [NHLScraper.Scrape, h0, hlen, if_true]
        exact ⟨hfr0.2.1, hfr0.2.2.1⟩
      · intro _ _
        simp only [NHLScraper.Scrape, h0, hlen, if_true]
        exact ⟨⟨_, rfl⟩, hfr0.2.1, hfr0.2.2.1, rfl⟩
    · have hmap : ¬ pr1.weekURLMap = [] := fun h => hlen (by rw [h]; rfl)
      obtain ⟨o1, hfr1, hends1⟩ := nhl_page_frame env pr1 w1 pr1.currentWeek
        (mapGet pr1.weekURLMap pr1.currentWeek)
      rcases h1 : pr1.ScrapeRankingPage env w1 pr1.currentWeek
        (mapGet pr1.weekURLMap pr1.currentWeek) with ⟨err1, pr2, w2⟩
      rw [h1] at hfr1 hends1
      simp only at hfr1 hends1
      have hfr01 := frame_trans _ _ _ _ _ hfr0 hfr1
      have hpre0 : ∀ e ∈ [("http://www.espn.com/nhl/", FetchOutcome.body)],
          e.2 = FetchOutcome.body := by
        intro e he
        simp only [List.mem_singleton] at he
        subst he
        rfl
      cases err1 with
      | some e =>
        refine ⟨[("http://www.espn.com/nhl/", FetchOutcome.body)] ++
          [(mapGet pr1.weekURLMap pr1.currentWeek, o1)], ?_, ?_, ?_, fun _ h => absurd h hmap⟩
        · simp only [NHLScraper.Scrape, h0, hlen, if_false, h1]
          exact hfr01.1
        · simp only [NHLScraper.Scrape, h0, hlen, if_false, h1]
          exact stops_append _ _ _ hpre0 (stops_single _ _ _ (endsAs_errex _ _ _ _ hends1))
        · intro _
          simp only [NHLScraper.Scrape, h0, hlen, if_false, h1]
          exact ⟨hfr01.2.1, hfr01.2.2.1⟩
      | none =>
        have hbody : o1 = FetchOutcome.body := endsAs_none o1 hends1
        subst hbody
        have hall : ∀ e ∈ [("http://www.espn.com/nhl/", FetchOutcome.body)] ++
            [(mapGet pr1.weekURLMap pr1.currentWeek, FetchOutcome.body)],
            e.2 = FetchOutcome.body := by
          intro e he
          simp only [List.mem_append, List.mem_singleton] at he
          rcases he with rfl | rfl <;> rfl
        refine ⟨[("http://www.espn.com/nhl/", FetchOutcome.body)] ++
          [(mapGet pr1.weekURLMap pr1.currentWeek, FetchOutcome.body)], ?_, ?_, ?_,
          fun _ h => absurd h hmap⟩
        · simp only [NHLScraper.Scrape, h0, hlen, if_false, h1, updateDB_fetches]
          exact hfr01.1
        · exact stops_all_body _ _ hall
        · intro hfail
          exact absurd hfail (not_all_body _ hall)

/-- What `Scrape` of either league keeps on every path, from any state:
every `Get` call but the last returned a body, so nothing is fetched after a
fetch that did not; if a request was sent and failed, for the home page or
for any week, `Scrape` returns an error, and if home discovery fetched its
page but found no week, `Scrape` returns an error after that one fetch; in
both cases, and when `Get` panicked on a url no request can be built for,
the season document is neither written nor changed, whatever was merged
into the season in memory. When `Get` panicked `Scrape` returns no error:
it ends in that panic. -/
theorem scrape_keeps_document (env : Env) (w : World) (pr : NBAScraper)
    (npr : NHLScraper) :
    ((pr.Scrape env w).2.2.fetches = w.fetches ++ newFetches w (pr.Scrape env w).2.2 ∧
      (∀ e ∈ (newFetches w (pr.Scrape env w).2.2).dropLast, e.2 = FetchOutcome.body) ∧
      (∀ e ∈ newFetches w (pr.Scrape env w).2.2, e.2 = FetchOutcome.failed →
        (∃ m, (pr.Scrape env w).1 = some (GoError.err m)) ∧
        (pr.Scrape env w).2.2.dbFile = w.dbFile ∧ (pr.Scrape env w).2.2.dbWrites = w.dbWrites) ∧
      (∀ e ∈ newFetches w (pr.Scrape env w).2.2, e.2 = FetchOutcome.panicked →
        (∃ m, (pr.Scrape env w).1 = some (GoError.panic m)) ∧
        (pr.Scrape env w).2.2.dbFile = w.dbFile ∧ (pr.Scrape env w).2.2.dbWrites = w.dbWrites) ∧
      ((pr.ScrapeHomePage env w).1 = none → (pr.ScrapeHomePage env w).2.1.weekURLMap = [] →
        (∃ m, (pr.Scrape env w).1 = some (GoError.err m)) ∧
        (pr.Scrape env w).2.2.dbFile = w.dbFile ∧ (pr.Scrape env w).2.2.dbWrites = w.dbWrites ∧
        (newFetches w (pr.Scrape env w).2.2).length = 1)) ∧
    ((npr.Scrape env w).2.2.fetches = w.fetches ++ newFetches w (npr.Scrape env w).2.2 ∧
      (∀ e ∈ (newFetches w (npr.Scrape env w).2.2).dropLast, e.2 = FetchOutcome.body) ∧
      (∀ e ∈ newFetches w (npr.Scrape env w).2.2, e.2 = FetchOutcome.failed →
        (∃ m, (npr.Scrape env w).1 = some (GoError.err m)) ∧
        (npr.Scrape env w).2.2.dbFile = w.dbFile ∧
        (npr.Scrape env w).2.2.dbWrites = w.dbWrites) ∧
      (∀ e ∈ newFetches w (npr.Scrape env w).2.2, e.2 = FetchOutcome.panicked →
        (∃ m, (npr.Scrape env w).1 = some (GoError.panic m)) ∧
        (npr.Scrape env w).2.2.dbFile = w.dbFile ∧
        (npr.Scrape env w).2.2.dbWrites = w.dbWrites) ∧
      ((npr.ScrapeHomePage env w).1 = none → (npr.ScrapeHomePage env w).2.1.weekURLMap = [] →
        (∃ m, (npr.Scrape env w).1 = some (GoError.err m)) ∧
        (npr.Scrape env w).2.2.dbFile = w.dbFile ∧
        (npr.Scrape env w).2.2.dbWrites = w.dbWrites ∧
        (newFetches w (npr.Scrape env w).2.2).length = 1)) := by
  refine ⟨?_, ?_⟩
  · obtain ⟨tr, h1, h2, h3, h4⟩ := nba_scrape_frame env pr w
    have hn : newFetches w (pr.Scrape env w).2.2 = tr := by
      unfold newFetches
      rw [h1]
      simp
    rw [hn]
    refine ⟨h1, h2.1, ?_, ?_, h4⟩
    · intro e he hf
      exact ⟨h2.2.2.1 e he hf, h3 ⟨e, he, by rw [hf]; simp⟩⟩
    · intro e he hf
      exact ⟨h2.2.2.2 e he hf, h3 ⟨e, he, by rw [hf]; simp⟩⟩
  · obtain ⟨tr, h1, h2, h3, h4⟩ := nhl_scrape_frame env npr w
    have hn : newFetches w (npr.Scrape env w).2.2 = tr := by
      unfold newFetches
      rw [h1]
      simp
    rw [hn]
    refine ⟨h1, h2.1, ?_, ?_, h4⟩
    · intro e he hf
      exact ⟨h2.2.2.1 e he hf, h3 ⟨e, he, by rw [hf]; simp⟩⟩
    · intro e he hf
      exact ⟨h2.2.2.2 e he hf, h3 ⟨e, he, by rw [hf]; simp⟩⟩

/-- The paths of `Scrape` on the example scrapers: with the network down the
home page fetch of the NBA scraper fails, `Scrape` returns an error and
writes nothing; where no request can be built the NHL scraper panics and
writes nothing. -/
theorem scrape_paths_example :
    newFetches exampleWorld (exampleNBA.Scrape offlineEnv exampleWorld).2.2 =
      [("http://www.espn.com/nba/", FetchOutcome.failed)] ∧
    ((∃ m, (exampleNBA.Scrape offlineEnv exampleWorld).1 = some (GoError.err m)) ∧
      (exampleNBA.Scrape offlineEnv exampleWorld).2.2.dbFile = exampleWorld.dbFile ∧
      (exampleNBA.Scrape offlineEnv exampleWorld).2.2.dbWrites = exampleWorld.dbWrites) ∧
    ((∃ m, (exampleNHL.Scrape badURLEnv exampleWorld).1 = some (GoError.panic m)) ∧
      (exampleNHL.Scrape badURLEnv exampleWorld).2.2.dbFile = exampleWorld.dbFile ∧
      (exampleNHL.Scrape badURLEnv exampleWorld).2.2.dbWrites = exampleWorld.dbWrites) :=
  ⟨by decide,
    (scrape_keeps_document offlineEnv exampleWorld exampleNBA exampleNHL).1.2.2.1
      ("http://www.espn.com/nba/", FetchOutcome.failed) (by decide) rfl,
    (scrape_keeps_document badURLEnv exampleWorld exampleNBA exampleNHL).2.2.2.2.1
      ("http://www.espn.com/nhl/", FetchOutcome.panicked) (by decide) rfl⟩

/-- Claim C6 fails on the code. The NHL home page links its Power Rankings
under an `href` that holds `%zz`. Home discovery succeeds: the week pattern
matches and the week is entered in the map with the normalized url. The
fetch for that week then fails before any request is sent: `http.NewRequest`
rejects the url, `Get` does not look at that error and calls
`req.Header.Add` on the nil request. `Scrape` does not return an error, it
ends in a nil-pointer panic. Nothing more is fetched and the season document
is neither written nor changed. -/
theorem scrape_panics_on_rejected_url :
    nhlWeekFromURLRE.FindStringSubmatch 1 "/nhl/page/powerrankings-%zz/x" =
      ["/page/powerrankings-%zz/", "%zz"] ∧
    (freshNHL.ScrapeHomePage rejectedEnv savedWorld).1 = none ∧
    (freshNHL.ScrapeHomePage rejectedEnv savedWorld).2.1.currentWeek = "%zz" ∧
    (freshNHL.ScrapeHomePage rejectedEnv savedWorld).2.1.weekURLMap =
      [("%zz", "http://www.espn.com/nhl/page/powerrankings-%zz/x")] ∧
    (freshNHL.Scrape rejectedEnv savedWorld).1 =
      some (GoError.panic "invalid memory address or nil pointer dereference") ∧
    (freshNHL.Scrape rejectedEnv savedWorld).2.2.fetches =
      [("http://www.espn.com/nhl/", FetchOutcome.body),
       ("http://www.espn.com/nhl/page/powerrankings-%zz/x", FetchOutcome.panicked)] ∧
    (freshNHL.Scrape rejectedEnv savedWorld).2.2.requests =
      [("http://www.espn.com/nhl/", defaultUA)] ∧
    (freshNHL.Scrape rejectedEnv savedWorld).2.2.dbFile = some "saved" ∧
    (freshNHL.Scrape rejectedEnv savedWorld).2.2.dbWrites = 0 := by
  decide

lemma getWeekItem_isSome (sdb : SeasonDB) (id : String) :
    (sdb.GetWeekItem id).isSome = true ↔ id ∈ sdb.weekIDs := by
  have h := getWeekItem_none sdb id
  cases hg : sdb.GetWeekItem id with
  | none =>
    rw [hg] at h
    have := h.1 rfl
    simp [this]
  | some item =>
    rw [hg] at h
    simp only [Option.isSome_some, true_iff]
    by_contra hno
    exact absurd (h.2 hno) (by simp)

lemma scrapeWeekTOC_fields (pr : NBAScraper) (doc : Doc) :
    (pr.scrapeWeekTOC doc).scraper = pr.scraper ∧
    (pr.scrapeWeekTOC doc).currentWeek = pr.currentWeek ∧
    (pr.scrapeWeekTOC doc).forceUpdate = pr.forceUpdate := by
  unfold NBAScraper.scrapeWeekTOC
  split <;> simp

lemma nba_page_season (env : Env) (pr : NBAScraper) (w : World) (week url : String) (doc : Doc)
    (hdoc : (pr.scraper.NewGoQuery env w url).1 = Except.ok doc) :
    (pr.ScrapeRankingPage env w week url).1 = none ∧
    (pr.ScrapeRankingPage env w week url).2.1.scraper.season =
      if pr.forceUpdate = false ∧ week ≠ pr.currentWeek ∧ week ∈ pr.scraper.season.weekIDs then
        pr.scraper.season
      else pr.scraper.season.UpdateWeekItem env.srt
        { WeekID := week, ScrapeDate := env.clock w.clockReads,
          Rankings := (nbaRankItems ([], []) doc.articleBolds).1 } := by
  have hf := newGoQuery_facts env pr.scraper w url
  unfold NBAScraper.ScrapeRankingPage
  rcases h : pr.scraper.NewGoQuery env w url with ⟨res, sc, w1⟩
  rw [h] at hf hdoc
  simp only at hf hdoc
  subst hdoc
  obtain ⟨hseason, _, _, hclock⟩ := hf
  simp only
  generalize hq : (if ({ pr with scraper := sc } : NBAScraper).weekURLMap.length = 1 then
    ({ pr with scraper := sc } : NBAScraper).scrapeWeekTOC doc
    else ({ pr with scraper := sc } : NBAScraper)) = q
  have hfields : q.scraper = sc ∧ q.currentWeek = pr.currentWeek ∧
      q.forceUpdate = pr.forceUpdate := by
    rw [← hq]
    split_ifs
    · exact scrapeWeekTOC_fields _ doc
    · exact ⟨rfl, rfl, rfl⟩
  obtain ⟨h1, h2, h3⟩ := hfields
  rw [h1, h2, h3, hseason, hclock]
  simp only [getWeekItem_isSome]
  split_ifs <;> simp [h1, hseason]

lemma nhl_page_season (env : Env) (pr : NHLScraper) (w : World) (week url : String) (doc : Doc)
    (hdoc : (pr.scraper.NewGoQuery env w url).1 = Except.ok doc) :
    (pr.ScrapeRankingPage env w week url).1 = none ∧
    (pr.ScrapeRankingPage env w week url).2.1.scraper.season =
      if pr.forceUpdate = false ∧ week ≠ pr.currentWeek ∧ week ∈ pr.scraper.season.weekIDs then
        pr.scraper.season
      else pr.scraper.season.UpdateWeekItem env.srt
        { WeekID := week, ScrapeDate := env.clock w.clockReads,
          Rankings := (nhlRankItems ([], []) doc.articleBodies).1 } := by
  have hf := newGoQuery_facts env pr.scraper w url
  unfold NHLScraper.ScrapeRankingPage
  rcases h : pr.scraper.NewGoQuery env w url with ⟨res, sc, w1⟩
  rw [h] at hf hdoc
  simp only at hf hdoc
  subst hdoc
  obtain ⟨hseason, _, _, hclock⟩ := hf
  simp only
  rw [hseason, hclock]
  simp only [getWeekItem_isSome]
  split_ifs <;> simp [hseason]

lemma updateWeekItem_rankings_sorted_aux (srt : SliceSort) (hs : IsSliceSort srt)
    (sdb : SeasonDB) (w : WeekItem) :
    w.SortRankings srt ∈ (sdb.UpdateWeekItem srt w).WeekItems ∧
    (sdb.weekIDs.Nodup →
      (sdb.UpdateWeekItem srt w).GetWeekItem w.WeekID = some (w.SortRankings srt)) := by
  refine ⟨update_mem srt hs sdb w, ?_⟩
  intro hd
  rw [getWeekItem_eq_head, updateWeekItem_upsert_aux srt hs sdb w hd]
  rfl

/-- Claim C5. `ScrapeRankingPage` of either league, when the fetch succeeds,
returns no error, and: if force update is off, the week is not the current
week and the season already holds a record for it, the season is unchanged;
in every other case (so whenever the week is the current week) the season is
the old one with the freshly built record upserted, the record built from the
entries parsed from this page and the time of this call; that record is then
in the season, and it is the record `GetWeekItem` returns for the week when
the week ids of the season were pairwise distinct. -/
theorem scrapeRankingPage_skip_policy (env : Env) (hs : IsSliceSort env.srt) (w : World)
    (week url : String) (pr : NBAScraper) (npr : NHLScraper) :
    (∀ doc, (pr.scraper.NewGoQuery env w url).1 = Except.ok doc →
      (pr.ScrapeRankingPage env w week url).1 = none ∧
      ((pr.forceUpdate = false ∧ week ≠ pr.currentWeek ∧ week ∈ pr.scraper.season.weekIDs) →
        (pr.ScrapeRankingPage env w week url).2.1.scraper.season = pr.scraper.season) ∧
      (¬ (pr.forceUpdate = false ∧ week ≠ pr.currentWeek ∧
          week ∈ pr.scraper.season.weekIDs) →
        (pr.ScrapeRankingPage env w week url).2.1.scraper.season =
          pr.scraper.season.UpdateWeekItem env.srt
            (WeekItem.mk week (env.clock w.clockReads) (nbaRankItems ([], []) doc.articleBolds).1) ∧
        (WeekItem.mk week (env.clock w.clockReads)
            (nbaRankItems ([], []) doc.articleBolds).1).SortRankings env.srt ∈
          (pr.ScrapeRankingPage env w week url).2.1.scraper.season.WeekItems ∧
        (pr.scraper.season.weekIDs.Nodup →
          (pr.ScrapeRankingPage env w week url).2.1.scraper.season.GetWeekItem week =
            some ((WeekItem.mk week (env.clock w.clockReads)
              (nbaRankItems ([], []) doc.articleBolds).1).SortRankings env.srt)))) ∧
    (∀ doc, (npr.scraper.NewGoQuery env w url).1 = Except.ok doc →
      (npr.ScrapeRankingPage env w week url).1 = none ∧
      ((npr.forceUpdate = false ∧ week ≠ npr.currentWeek ∧ week ∈ npr.scraper.season.weekIDs) →
        (npr.ScrapeRankingPage env w week url).2.1.scraper.season = npr.scraper.season) ∧
      (¬ (npr.forceUpdate = false ∧ week ≠ npr.currentWeek ∧
          week ∈ npr.scraper.season.weekIDs) →
        (npr.ScrapeRankingPage env w week url).2.1.scraper.season =
          npr.scraper.season.UpdateWeekItem env.srt
            (WeekItem.mk week (env.clock w.clockReads) (nhlRankItems ([], []) doc.articleBodies).1) ∧
        (WeekItem.mk week (env.clock w.clockReads)
            (nhlRankItems ([], []) doc.articleBodies).1).SortRankings env.srt ∈
          (npr.ScrapeRankingPage env w week url).2.1.scraper.season.WeekItems ∧
        (npr.scraper.season.weekIDs.Nodup →
          (npr.ScrapeRankingPage env w week url).2.1.scraper.season.GetWeekItem week =
            some ((WeekItem.mk week (env.clock w.clockReads)
              (nhlRankItems ([], []) doc.articleBodies).1).SortRankings env.srt)))) := by
  refine ⟨?_, ?_⟩
  · intro doc hdoc
    obtain ⟨herr, hseason⟩ := nba_page_season env pr w week url doc hdoc
    refine ⟨herr, ?_, ?_⟩
    · intro hc
      rw [hseason, if_pos hc]
    · intro hc
      rw [hseason, if_neg hc]
      have h7 := updateWeekItem_rankings_sorted_aux env.srt hs pr.scraper.season
        (WeekItem.mk week (env.clock w.clockReads) (nbaRankItems ([], []) doc.articleBolds).1)
      exact ⟨rfl, h7.1, h7.2⟩
  · intro doc hdoc
    obtain ⟨herr, hseason⟩ := nhl_page_season env npr w week url doc hdoc
    refine ⟨herr, ?_, ?_⟩
    · intro hc
      rw [hseason, if_pos hc]
    · intro hc
      rw [hseason, if_neg hc]
      have h7 := updateWeekItem_rankings_sorted_aux env.srt hs npr.scraper.season
        (WeekItem.mk week (env.clock w.clockReads) (nhlRankItems ([], []) doc.articleBodies).1)
      exact ⟨rfl, h7.1, h7.2⟩

/-- Witness of C5 on the example scrapers: week 1 is held and not current, so
the NBA page leaves the season unchanged; week 2 is current, so the NHL page
replaces it with the record parsed from the page. -/
theorem scrapeRankingPage_skip_policy_witness :
    IsSliceSort exampleEnv.srt ∧
    (exampleNBA.scraper.NewGoQuery exampleEnv exampleWorld "http://www.espn.com/x").1 =
      Except.ok exampleDoc ∧
    (exampleNBA.ScrapeRankingPage exampleEnv exampleWorld "1"
      "http://www.espn.com/x").2.1.scraper.season = exampleNBA.scraper.season ∧
    (exampleNHL.ScrapeRankingPage exampleEnv exampleWorld "2"
      "http://www.espn.com/x").2.1.scraper.season.GetWeekItem "2" =
      some { WeekID := "2", ScrapeDate := "2017-03-08 09:30:00",
             Rankings := [{ Team := "Chicago Blackhawks", Rank := 1 }] } :=
  ⟨goInsertionSort_isSliceSort, rfl,
    ((scrapeRankingPage_skip_policy exampleEnv goInsertionSort_isSliceSort exampleWorld "1"
      "http://www.espn.com/x" exampleNBA exampleNHL).1 exampleDoc rfl).2.1
        ⟨rfl, by decide, by decide⟩,
    (((scrapeRankingPage_skip_policy exampleEnv goInsertionSort_isSliceSort exampleWorld "2"
      "http://www.espn.com/x" exampleNBA exampleNHL).2 exampleDoc rfl).2.2
        (by decide)).2.2 (by decide)⟩

/-- Claim C9 fails on the code. Two replays of the same log of four pages
from the same state both succeed, without a network; they differ only in the
order in which `range` visits the week-to-url map, and they store different
rankings for weeks 1 and 2: the page replayed third is filed under whichever
of the two weeks the loop reaches first. -/
theorem replay_depends_on_map_order :
    (replayNBA.Scrape replayEnvForward replayWorld).1 = none ∧
    (replayNBA.Scrape replayEnvBackward replayWorld).1 = none ∧
    (replayNBA.Scrape replayEnvForward replayWorld).2.2.requests = [] ∧
    (replayNBA.Scrape replayEnvBackward replayWorld).2.2.requests = [] ∧
    (replayNBA.Scrape replayEnvForward replayWorld).2.1.scraper.season.rankingsByWeek =
      [("1", [{ Team := "San Antonio Spurs", Rank := 1 }]),
       ("2", [{ Team := "Houston Rockets", Rank := 1 }]),
       ("3", [{ Team := "Golden State Warriors", Rank := 1 }])] ∧
    (replayNBA.Scrape replayEnvBackward replayWorld).2.1.scraper.season.rankingsByWeek =
      [("1", [{ Team := "Houston Rockets", Rank := 1 }]),
       ("2", [{ Team := "San Antonio Spurs", Rank := 1 }]),
       ("3", [{ Team := "Golden State Warriors", Rank := 1 }])] := by
  decide


end Prlib
